import Mathlib

set_option linter.unusedSectionVars false
set_option linter.unusedVariables false

/-!
Verification of the minidrive engine core (entity/world loop, scene batching,
cameras) against its specification.

The Rust sources are shallowly embedded:
* `HashMap<K, V>` becomes an association list `List (K × V)` with unique keys;
  its iteration order is the list order (the spec leaves the hash map's
  iteration order implementation-defined, so any concrete order is a faithful
  instance).
* `f32` values become real numbers (`ℝ`); float arithmetic is modelled exactly.
* fallible operations return `Option`.
* external collaborators (the rapier physics solver step, the vulkano
  renderers, the nalgebra `slerp`/`rotation_to` helpers and the polymorphic
  camera dispatch) are parameters of the model, per the spec's
  "external interfaces" section.
-/

namespace Minidrive

/-! ## Association lists (shallow embedding of `std::collections::HashMap`)

`alookup`/`ainsert`/`aerase` model `HashMap::get`, `HashMap::insert`
(replace-or-add) and `HashMap::remove`.  Keys are compared with decidable
equality; `ainsert` keeps an existing key in place and otherwise appends,
which fixes one concrete iteration order. -/

def alookup {A B : Type} [DecidableEq A] (k : A) : List (A × B) → Option B
  | [] => none
  | (a, b) :: rest => if a = k then some b else alookup k rest

def ainsert {A B : Type} [DecidableEq A] (k : A) (v : B) : List (A × B) → List (A × B)
  | [] => [(k, v)]
  | (a, b) :: rest => if a = k then (k, v) :: rest else (a, b) :: ainsert k v rest

def aerase {A B : Type} [DecidableEq A] (k : A) : List (A × B) → List (A × B)
  | [] => []
  | (a, b) :: rest => if a = k then aerase k rest else (a, b) :: aerase k rest

def mapVals {A B C : Type} (f : B → C) (l : List (A × B)) : List (A × C) :=
  l.map fun p => (p.1, f p.2)

section AListLemmas

variable {A B C : Type} [DecidableEq A]

theorem alookup_ainsert_self (k : A) (v : B) (l : List (A × B)) :
    alookup k (ainsert k v l) = some v := by
  induction l with
  | nil => simp [ainsert, alookup]
  | cons hd tl ih =>
    obtain ⟨a, b⟩ := hd
    by_cases h : a = k
    · simp [ainsert, alookup, h]
    · simp [ainsert, alookup, h, ih]

theorem alookup_ainsert_ne (k k' : A) (v : B) (l : List (A × B)) (h : k ≠ k') :
    alookup k' (ainsert k v l) = alookup k' l := by
  induction l with
  | nil => simp [ainsert, alookup, h]
  | cons hd tl ih =>
    obtain ⟨a, b⟩ := hd
    by_cases ha : a = k
    · subst ha
      simp [ainsert, alookup, h]
    · simp [ainsert, alookup, ha, ih]

theorem alookup_aerase_self (k : A) (l : List (A × B)) :
    alookup k (aerase k l) = none := by
  induction l with
  | nil => simp [aerase, alookup]
  | cons hd tl ih =>
    obtain ⟨a, b⟩ := hd
    by_cases h : a = k
    · simp [aerase, h, ih]
    · simp [aerase, alookup, h, ih]

theorem alookup_aerase_ne (k k' : A) (l : List (A × B)) (h : k ≠ k') :
    alookup k' (aerase k l) = alookup k' l := by
  induction l with
  | nil => simp [aerase]
  | cons hd tl ih =>
    obtain ⟨a, b⟩ := hd
    by_cases ha : a = k
    · subst ha
      simp [aerase, alookup, ih, fun hk : a = k' => h hk]
    · simp [aerase, alookup, ha, ih]

theorem aerase_of_alookup_none (k : A) (l : List (A × B)) (h : alookup k l = none) :
    aerase k l = l := by
  induction l with
  | nil => rfl
  | cons hd tl ih =>
    obtain ⟨a, b⟩ := hd
    by_cases ha : a = k
    · simp [alookup, ha] at h
    · simp [alookup, ha] at h
      simp [aerase, ha, ih h]

theorem alookup_mapVals (f : B → C) (k : A) (l : List (A × B)) :
    alookup k (mapVals f l) = (alookup k l).map f := by
  induction l with
  | nil => simp [mapVals, alookup]
  | cons hd tl ih =>
    obtain ⟨a, b⟩ := hd
    by_cases h : a = k
    · simp [mapVals, alookup, h]
    · simpa [mapVals, alookup, h] using ih

theorem alookup_none_of_not_mem_keys (k : A) (l : List (A × B))
    (h : k ∉ l.map Prod.fst) : alookup k l = none := by
  induction l with
  | nil => rfl
  | cons hd tl ih =>
    obtain ⟨a, b⟩ := hd
    simp only [List.map_cons, List.mem_cons] at h
    push_neg at h
    have hak : ¬a = k := fun hk => h.1 hk.symm
    simp [alookup, hak, ih h.2]

theorem not_mem_keys_of_alookup_none (k : A) (l : List (A × B))
    (h : alookup k l = none) : k ∉ l.map Prod.fst := by
  induction l with
  | nil => simp
  | cons hd tl ih =>
    obtain ⟨a, b⟩ := hd
    by_cases ha : a = k
    · simp [alookup, ha] at h
    · simp [alookup, ha] at h
      have hka : ¬k = a := fun hk => ha hk.symm
      simp [hka, ih h]

end AListLemmas

/-! ## Scene batch (`src/render_system/scene.rs`)

`Scene<K, Vertex>` keeps an object map, a cached flattened vertex buffer and a
dirty flag.  The GPU `Subbuffer<[Vertex]>` is modelled by the list of vertices
it holds; `None` models the absent buffer. -/

/-- Flattening of the object map's vertex lists in iteration order; models
`objects.values().flat_map(|o| o.iter())` in the free function
`vertex_buffer`. -/
def flattenValues {K V : Type} (os : List (K × List V)) : List V :=
  os.foldr (fun kv acc => kv.2 ++ acc) []

/-- Models the free function `vertex_buffer` of `scene.rs`: flatten all the
object vertex lists; return `None` if the flattened list is empty, otherwise
the (uploaded) buffer holding exactly those vertices. -/
def mkVertexBuffer {K V : Type} (os : List (K × List V)) : Option (List V) :=
  let vertexes := flattenValues os
  if vertexes.isEmpty then none else some vertexes

structure Scene (K V : Type) where
  objects : List (K × List V)
  vertex_buffer : Option (List V)
  vertex_buffer_needs_update : Bool

variable {K V : Type} [DecidableEq K]

/-- Models `Scene::new`. -/
def Scene.new (objects : List (K × List V)) : Scene K V :=
  { vertex_buffer := mkVertexBuffer objects
    objects := objects
    vertex_buffer_needs_update := false }

/-- Models `Scene::add_object`: insert-or-replace and mark dirty. -/
def Scene.add_object (s : Scene K V) (key : K) (object : List V) : Scene K V :=
  { s with objects := ainsert key object s.objects, vertex_buffer_needs_update := true }

/-- Models `Scene::remove_object`: delete if present; mark dirty only if
something was actually removed. -/
def Scene.remove_object (s : Scene K V) (key : K) : Scene K V :=
  let removed := alookup key s.objects
  { s with
    objects := aerase key s.objects
    vertex_buffer_needs_update := s.vertex_buffer_needs_update || removed.isSome }

/-- Models the method `Scene::vertex_buffer`: lazily rebuild the cached buffer
when dirty, then return it.  The returned pair is (returned buffer, mutated
scene). -/
def Scene.vertexBuffer (s : Scene K V) : Option (List V) × Scene K V :=
  if s.vertex_buffer_needs_update then
    let vb := mkVertexBuffer s.objects
    (vb, { s with vertex_buffer := vb, vertex_buffer_needs_update := false })
  else
    (s.vertex_buffer, s)

/-- A mutation of the scene: one `add_object` or `remove_object` call. -/
inductive SceneOp (K V : Type) where
  | add (key : K) (object : List V)
  | remove (key : K)

def Scene.applyOp (s : Scene K V) : SceneOp K V → Scene K V
  | .add k o => s.add_object k o
  | .remove k => s.remove_object k

def Scene.applyOps (s : Scene K V) (ops : List (SceneOp K V)) : Scene K V :=
  ops.foldl Scene.applyOp s

/-- Cache consistency: whenever the dirty flag is clear, the cached buffer is
the rebuild of the current object map. -/
def Scene.CacheOk (s : Scene K V) : Prop :=
  s.vertex_buffer_needs_update = false → s.vertex_buffer = mkVertexBuffer s.objects

theorem Scene.cacheOk_new (objects : List (K × List V)) : (Scene.new objects).CacheOk := by
  intro _
  rfl

theorem Scene.cacheOk_applyOp (s : Scene K V) (hs : s.CacheOk) (op : SceneOp K V) :
    (s.applyOp op).CacheOk := by
  cases op with
  | add k o => intro h; simp [Scene.applyOp, Scene.add_object] at h
  | remove k =>
    intro h
    simp only [Scene.applyOp, Scene.remove_object, Bool.or_eq_false_iff] at h ⊢
    obtain ⟨h1, h2⟩ := h
    have hnone : alookup k s.objects = none := by
      cases hl : alookup k s.objects with
      | none => rfl
      | some v => rw [hl] at h2; simp at h2
    rw [aerase_of_alookup_none k s.objects hnone]
    exact hs h1

theorem Scene.cacheOk_applyOps (s : Scene K V) (hs : s.CacheOk) (ops : List (SceneOp K V)) :
    (s.applyOps ops).CacheOk := by
  induction ops generalizing s with
  | nil => exact hs
  | cons op rest ih => exact ih _ (s.cacheOk_applyOp hs op)

/-- C1: Scene batch lazy rebuild is correct: for every interleaving of
`add_object`/`remove_object` calls followed by one `vertex_buffer()` read, the
buffer returned equals the flattened concatenation of the vertex lists in the
object map at the time of the read (in the map's iteration order, `none`
standing for the empty buffer), and the read returns an absent result when the
object map is empty; the number of intermediate mutations does not affect the
result. -/
theorem scene_lazy_rebuild_correct (m0 : List (K × List V)) (ops : List (SceneOp K V)) :
    (((Scene.new m0).applyOps ops).vertexBuffer).1
      = mkVertexBuffer ((Scene.new m0).applyOps ops).objects
    ∧ (((Scene.new m0).applyOps ops).objects = [] →
        (((Scene.new m0).applyOps ops).vertexBuffer).1 = none) := by
  have hok := Scene.cacheOk_applyOps (Scene.new m0) (Scene.cacheOk_new m0) ops
  set s := (Scene.new m0).applyOps ops with hs
  have hmain : (s.vertexBuffer).1 = mkVertexBuffer s.objects := by
    unfold Scene.vertexBuffer
    cases hd : s.vertex_buffer_needs_update with
    | false => simpa [hd] using hok hd
    | true => simp [hd]
  refine ⟨hmain, fun hempty => ?_⟩
  rw [hmain, hempty]
  rfl

/-- C1 witness: starting from the empty map, adding then removing one object
leaves the object map empty, and the subsequent read returns the absent
buffer. -/
theorem scene_lazy_rebuild_correct_witness :
    (((Scene.new ([] : List (ℕ × List ℕ))).applyOps
        [SceneOp.add 0 [1, 2], SceneOp.remove 0]).objects = [])
    ∧ (((Scene.new ([] : List (ℕ × List ℕ))).applyOps
        [SceneOp.add 0 [1, 2], SceneOp.remove 0]).vertexBuffer).1 = none :=
  ⟨by decide, (scene_lazy_rebuild_correct [] [SceneOp.add 0 [1, 2], SceneOp.remove 0]).2 (by decide)⟩

/-! ## Camera direction vectors (`src/camera.rs`, `DirVecs`)

`nalgebra` 3-vectors over `f32` are modelled as triples of reals; `normalize`
divides by the Euclidean norm, exactly as `nalgebra`'s `Vector3::normalize`. -/

@[ext]
structure Vec3 where
  x : ℝ
  y : ℝ
  z : ℝ

def dot3 (a b : Vec3) : ℝ := a.x * b.x + a.y * b.y + a.z * b.z

def cross3 (a b : Vec3) : Vec3 :=
  ⟨a.y * b.z - a.z * b.y, a.z * b.x - a.x * b.z, a.x * b.y - a.y * b.x⟩

def add3 (a b : Vec3) : Vec3 := ⟨a.x + b.x, a.y + b.y, a.z + b.z⟩

def sub3 (a b : Vec3) : Vec3 := ⟨a.x - b.x, a.y - b.y, a.z - b.z⟩

def smul3 (r : ℝ) (v : Vec3) : Vec3 := ⟨r * v.x, r * v.y, r * v.z⟩

noncomputable def norm3 (v : Vec3) : ℝ := Real.sqrt (dot3 v v)

noncomputable def normalize3 (v : Vec3) : Vec3 :=
  ⟨v.x / norm3 v, v.y / norm3 v, v.z / norm3 v⟩

structure DirVecs where
  front : Vec3
  right : Vec3
  up : Vec3

/-- Models `DirVecs::new`: the normalized yaw/pitch "front" vector (which by
the source's own note actually points backwards), then
`right = normalize(front × worldup)` and `up = normalize(right × front)`. -/
noncomputable def DirVecs.new (worldup : Vec3) (pitch yaw : ℝ) : DirVecs :=
  let front := normalize3
    ⟨Real.cos yaw * Real.cos pitch, Real.sin pitch, Real.sin yaw * Real.cos pitch⟩
  let right := normalize3 (cross3 front worldup)
  let up := normalize3 (cross3 right front)
  ⟨front, right, up⟩

theorem normalize3_of_unit (v : Vec3) (hv : dot3 v v = 1) : normalize3 v = v := by
  have hn : norm3 v = 1 := by rw [norm3, hv]; exact Real.sqrt_one
  simp [normalize3, hn]

/-- C7: for every pitch strictly between −89° and +89° and every yaw, the
derived front/right/up vectors of `DirVecs::new` (with the world-up vector
`(0, −1, 0)` used by every camera constructor) are pairwise orthogonal unit
vectors. -/
theorem dirvecs_orthonormal (pitch yaw : ℝ)
    (h : |pitch| < 89 * (Real.pi / 180)) :
    dot3 (DirVecs.new ⟨0, -1, 0⟩ pitch yaw).front (DirVecs.new ⟨0, -1, 0⟩ pitch yaw).right = 0
    ∧ dot3 (DirVecs.new ⟨0, -1, 0⟩ pitch yaw).front (DirVecs.new ⟨0, -1, 0⟩ pitch yaw).up = 0
    ∧ dot3 (DirVecs.new ⟨0, -1, 0⟩ pitch yaw).right (DirVecs.new ⟨0, -1, 0⟩ pitch yaw).up = 0
    ∧ norm3 (DirVecs.new ⟨0, -1, 0⟩ pitch yaw).front = 1
    ∧ norm3 (DirVecs.new ⟨0, -1, 0⟩ pitch yaw).right = 1
    ∧ norm3 (DirVecs.new ⟨0, -1, 0⟩ pitch yaw).up = 1 := by
  have hy := Real.sin_sq_add_cos_sq yaw
  have hp := Real.sin_sq_add_cos_sq pitch
  have hlt : |pitch| < Real.pi / 2 := lt_of_lt_of_le h (by nlinarith [Real.pi_pos])
  have hc : 0 < Real.cos pitch :=
    Real.cos_pos_of_mem_Ioo (Set.mem_Ioo.mpr ⟨(abs_lt.mp hlt).1, (abs_lt.mp hlt).2⟩)
  -- the front vector is already a unit vector
  have hf : dot3 ⟨Real.cos yaw * Real.cos pitch, Real.sin pitch, Real.sin yaw * Real.cos pitch⟩
      ⟨Real.cos yaw * Real.cos pitch, Real.sin pitch, Real.sin yaw * Real.cos pitch⟩ = 1 := by
    simp only [dot3]
    linear_combination (Real.cos pitch) ^ 2 * hy + hp
  have hfront := normalize3_of_unit _ hf
  -- front × worldup
  have hcross1 : cross3
      ⟨Real.cos yaw * Real.cos pitch, Real.sin pitch, Real.sin yaw * Real.cos pitch⟩
      ⟨0, -1, 0⟩
      = ⟨Real.sin yaw * Real.cos pitch, 0, -(Real.cos yaw * Real.cos pitch)⟩ := by
    simp only [cross3, Vec3.mk.injEq]
    refine ⟨by ring, by ring, by ring⟩
  have hd2 : dot3 ⟨Real.sin yaw * Real.cos pitch, 0, -(Real.cos yaw * Real.cos pitch)⟩
      ⟨Real.sin yaw * Real.cos pitch, 0, -(Real.cos yaw * Real.cos pitch)⟩
      = Real.cos pitch ^ 2 := by
    simp only [dot3]
    linear_combination (Real.cos pitch) ^ 2 * hy
  have hnr : norm3 ⟨Real.sin yaw * Real.cos pitch, 0, -(Real.cos yaw * Real.cos pitch)⟩
      = Real.cos pitch := by
    rw [norm3, hd2]; exact Real.sqrt_sq hc.le
  have hright : normalize3 ⟨Real.sin yaw * Real.cos pitch, 0, -(Real.cos yaw * Real.cos pitch)⟩
      = ⟨Real.sin yaw, 0, -(Real.cos yaw)⟩ := by
    simp only [normalize3, hnr, Vec3.mk.injEq]
    refine ⟨mul_div_cancel_right₀ _ hc.ne', zero_div _, ?_⟩
    rw [neg_div]
    exact congrArg Neg.neg (mul_div_cancel_right₀ _ hc.ne')
  -- right × front
  have hcross2 : cross3 ⟨Real.sin yaw, 0, -(Real.cos yaw)⟩
      ⟨Real.cos yaw * Real.cos pitch, Real.sin pitch, Real.sin yaw * Real.cos pitch⟩
      = ⟨Real.cos yaw * Real.sin pitch, -(Real.cos pitch), Real.sin yaw * Real.sin pitch⟩ := by
    simp only [cross3, Vec3.mk.injEq]
    refine ⟨by ring, by linear_combination (-(Real.cos pitch)) * hy, by ring⟩
  have hu : dot3 ⟨Real.cos yaw * Real.sin pitch, -(Real.cos pitch), Real.sin yaw * Real.sin pitch⟩
      ⟨Real.cos yaw * Real.sin pitch, -(Real.cos pitch), Real.sin yaw * Real.sin pitch⟩ = 1 := by
    simp only [dot3]
    linear_combination (Real.sin pitch) ^ 2 * hy + hp
  have hup := normalize3_of_unit _ hu
  have hnew : DirVecs.new ⟨0, -1, 0⟩ pitch yaw =
      ⟨⟨Real.cos yaw * Real.cos pitch, Real.sin pitch, Real.sin yaw * Real.cos pitch⟩,
       ⟨Real.sin yaw, 0, -(Real.cos yaw)⟩,
       ⟨Real.cos yaw * Real.sin pitch, -(Real.cos pitch), Real.sin yaw * Real.sin pitch⟩⟩ := by
    simp only [DirVecs.new]
    rw [hfront, hcross1, hright, hcross2, hup]
  rw [hnew]
  have hr1 : dot3 (⟨Real.sin yaw, 0, -(Real.cos yaw)⟩ : Vec3)
      ⟨Real.sin yaw, 0, -(Real.cos yaw)⟩ = 1 := by
    simp only [dot3]
    linear_combination hy
  refine ⟨?_, ?_, ?_, ?_, ?_, ?_⟩
  · simp only [dot3]; ring
  · simp only [dot3]
    linear_combination (Real.cos pitch * Real.sin pitch) * hy
  · simp only [dot3]; ring
  · rw [norm3, hf]; exact Real.sqrt_one
  · rw [norm3, hr1]; exact Real.sqrt_one
  · rw [norm3, hu]; exact Real.sqrt_one

/-- C7 witness: the orthonormality conclusion instantiated at pitch = 0,
yaw = 0 (which satisfies the pitch bound). -/
theorem dirvecs_orthonormal_witness :
    |(0 : ℝ)| < 89 * (Real.pi / 180)
    ∧ (dot3 (DirVecs.new ⟨0, -1, 0⟩ 0 0).front (DirVecs.new ⟨0, -1, 0⟩ 0 0).right = 0
      ∧ dot3 (DirVecs.new ⟨0, -1, 0⟩ 0 0).front (DirVecs.new ⟨0, -1, 0⟩ 0 0).up = 0
      ∧ dot3 (DirVecs.new ⟨0, -1, 0⟩ 0 0).right (DirVecs.new ⟨0, -1, 0⟩ 0 0).up = 0
      ∧ norm3 (DirVecs.new ⟨0, -1, 0⟩ 0 0).front = 1
      ∧ norm3 (DirVecs.new ⟨0, -1, 0⟩ 0 0).right = 1
      ∧ norm3 (DirVecs.new ⟨0, -1, 0⟩ 0 0).up = 1) := by
  have h0 : |(0 : ℝ)| < 89 * (Real.pi / 180) := by
    rw [abs_zero]
    nlinarith [Real.pi_pos]
  exact ⟨h0, dirvecs_orthonormal 0 0 h0⟩

/-! ## Perspective camera MVP (`src/camera.rs`)

4×4 `f32` matrices are modelled as `Matrix (Fin 4) (Fin 4) ℝ`.  The external
nalgebra constructors `Matrix4::new_perspective` and `Matrix4::look_at_rh` are
given their documented right-handed OpenGL-convention semantics. -/

abbrev M4 := Matrix (Fin 4) (Fin 4) ℝ

/-- Models `deg2rad` of `camera.rs`. -/
noncomputable def deg2rad (deg : ℝ) : ℝ := deg * Real.pi / 180

/-- Semantics of nalgebra's `Matrix4::new_perspective(aspect, fovy, znear, zfar)`
(right-handed, clip z in [−1, 1]). -/
noncomputable def newPerspective (aspect fovy znear zfar : ℝ) : M4 :=
  let f := 1 / Real.tan (fovy / 2)
  !![f / aspect, 0, 0, 0;
     0, f, 0, 0;
     0, 0, (zfar + znear) / (znear - zfar), 2 * zfar * znear / (znear - zfar);
     0, 0, -1, 0]

/-- Semantics of nalgebra's `Matrix4::look_at_rh(eye, target, up)`. -/
noncomputable def lookAtRh (eye target up : Vec3) : M4 :=
  let f := normalize3 (sub3 target eye)
  let s := normalize3 (cross3 f up)
  let u := cross3 s f
  !![s.x, s.y, s.z, -(dot3 s eye);
     u.x, u.y, u.z, -(dot3 u eye);
     -f.x, -f.y, -f.z, dot3 f eye;
     0, 0, 0, 1]

/-- Models `gen_perspective_projection`: perspective projection with the
viewport aspect ratio, a 90° field of view, near plane 0.1 and far plane 100.
(The source binds the extent as `[screen_x, screeen_y]` and divides by
`screen_y`; the misspelt binder is read as the intended height component.) -/
noncomputable def gen_perspective_projection (extent : ℕ × ℕ) : M4 :=
  newPerspective ((extent.1 : ℝ) / (extent.2 : ℝ)) (deg2rad 90) 0.1 100

structure PerspectiveCamera where
  pos : Vec3
  worldup : Vec3
  pitch : ℝ
  yaw : ℝ
  dirs : DirVecs

/-- Models `PerspectiveCamera::new`. -/
noncomputable def PerspectiveCamera.new (pos : Vec3) : PerspectiveCamera :=
  let pitch : ℝ := 0
  let yaw : ℝ := deg2rad (-90)
  let worldup : Vec3 := ⟨0, -1, 0⟩
  { pos := pos, worldup := worldup, pitch := pitch, yaw := yaw
    dirs := DirVecs.new worldup pitch yaw }

/-- Models `PerspectiveCamera::mvp`: the perspective projection times the
right-handed look-at matrix aimed at `pos − front`. -/
noncomputable def PerspectiveCamera.mvp (c : PerspectiveCamera) (extent : ℕ × ℕ) : M4 :=
  gen_perspective_projection extent
    * lookAtRh c.pos (sub3 c.pos c.dirs.front) c.worldup

/-- C8: for every perspective camera state and viewport extent, `mvp(extent)`
is the perspective projection with field of view 90° (= π/2 radians), near
plane 0.1, far plane 100 and aspect ratio width/height, composed (projection
times view) with the right-handed look-at matrix whose eye is the camera
position, whose target is `position − front` (the deliberately
backward-pointing front convention), and whose up vector is the world-up. -/
theorem perspective_mvp_spec (c : PerspectiveCamera) (w h : ℕ) :
    c.mvp (w, h)
      = newPerspective ((w : ℝ) / (h : ℝ)) (Real.pi / 2) (1 / 10) 100
        * lookAtRh c.pos (sub3 c.pos c.dirs.front) c.worldup := by
  have hfov : deg2rad 90 = Real.pi / 2 := by
    unfold deg2rad; ring
  have hnear : (0.1 : ℝ) = 1 / 10 := by norm_num
  rw [PerspectiveCamera.mvp, gen_perspective_projection, hfov, hnear]

/-! ## Trackball camera (`src/camera.rs`, `TrackballCamera`)

Unit quaternions (`nalgebra::UnitQuaternion<f32>`) are modelled as real
quaternions with the Hamilton product; the unit-norm refinement is irrelevant
to the claims.  The external nalgebra helpers `slerp` and `rotation_to` are
parameters of the model. -/

@[ext]
structure Quat where
  re : ℝ
  i : ℝ
  j : ℝ
  k : ℝ

/-- Hamilton product (the semantics of nalgebra quaternion multiplication). -/
def Quat.mul (p q : Quat) : Quat :=
  ⟨p.re * q.re - p.i * q.i - p.j * q.j - p.k * q.k,
   p.re * q.i + p.i * q.re + p.j * q.k - p.k * q.j,
   p.re * q.j - p.i * q.k + p.j * q.re + p.k * q.i,
   p.re * q.k + p.i * q.j - p.j * q.i + p.k * q.re⟩

instance : Mul Quat := ⟨Quat.mul⟩

instance : One Quat := ⟨⟨1, 0, 0, 0⟩⟩

theorem Quat.one_mul_q (q : Quat) : (1 : Quat) * q = q := by
  show Quat.mul ⟨1, 0, 0, 0⟩ q = q
  cases q with
  | mk a b c d =>
    simp only [Quat.mul, Quat.mk.injEq]
    refine ⟨by ring, by ring, by ring, by ring⟩

@[ext]
structure Vec2 where
  x : ℝ
  y : ℝ

inductive ElementState where
  | Pressed
  | Released

inductive VKey where
  | W
  | A
  | S
  | D

/-- The window events relevant to the embedded code paths (cursor movement,
mouse buttons, the four movement keys used by `GameWorld::step`); every other
`winit` event falls into `Other` and is ignored by all handlers. -/
inductive WindowEvent where
  | CursorMoved (x y : ℝ)
  | MouseInput (state : ElementState)
  | KeyboardInput (key : VKey) (state : ElementState)
  | Other

/-- Modelled from the spec: the accumulated pointer/keyboard input state.
`UserInputState` is used by `camera.rs` (fields `x`, `y`, `px`, `py`) and
`entity.rs` (fields `w`, `a`, `s`, `d`), but its definition is missing from
the sources; per the spec's data model it accumulates the pressed
movement-key flags and the current and previous cursor positions. -/
structure UserInputState where
  x : ℝ
  y : ℝ
  px : ℝ
  py : ℝ
  w : Bool
  a : Bool
  s : Bool
  d : Bool

def UserInputState.new : UserInputState := ⟨0, 0, 0, 0, false, false, false, false⟩

/-- Modelled from the spec: `handle_input` accumulates raw events — a cursor
move shifts the current position into the previous one and stores the new
position; a key event sets the matching pressed flag. -/
def UserInputState.handle_input (u : UserInputState) (e : WindowEvent) : UserInputState :=
  match e with
  | .CursorMoved nx ny => { u with px := u.x, py := u.y, x := nx, y := ny }
  | .KeyboardInput key state =>
      let pressed := match state with | .Pressed => true | .Released => false
      match key with
      | .W => { u with w := pressed }
      | .A => { u with a := pressed }
      | .S => { u with s := pressed }
      | .D => { u with d := pressed }
  | _ => u

structure TrackballCamera where
  root_pos : Vec3
  worldup : Vec3
  offset : ℝ
  user_input_state : UserInputState
  mouse_location : Option (Vec2 × Vec2)
  damping_factor : ℝ
  base_q : Quat
  curr_q : Quat
  momentum_q : Quat
  momentum_magnitude : ℝ
  -- The first `CursorMoved` arm of the source's `handle_event` assigns
  -- `self.x`, `self.y`, `self.dx`, `self.dy`, which are absent from the
  -- source's struct declaration; they are carried here so that the arm is
  -- expressible.  No other code reads them.
  x : ℝ
  y : ℝ
  dx : ℝ
  dy : ℝ

/-- Models `TrackballCamera::new` (the extra `x/y/dx/dy` fields start at 0). -/
def TrackballCamera.new (pos : Vec3) : TrackballCamera :=
  { root_pos := pos
    worldup := ⟨0, -1, 0⟩
    offset := 3
    damping_factor := 0.9
    user_input_state := UserInputState.new
    mouse_location := none
    base_q := 1
    curr_q := 1
    momentum_q := 1
    momentum_magnitude := 0
    x := 0, y := 0, dx := 0, dy := 0 }

/-- Models `TrackballCamera::project_trackball`: hemisphere projection near
the centre, hyperbolic sheet outside `x² + y² > r²/2`. -/
noncomputable def TrackballCamera.project_trackball (p : Vec2) : Vec3 :=
  let r : ℝ := 1
  let z := if p.x * p.x + p.y * p.y ≤ r * r / 2
    then Real.sqrt (r * r - p.x * p.x - p.y * p.y)
    else (r * r / 2) / Real.sqrt (p.x * p.x + p.y * p.y)
  ⟨p.x, -p.y, z⟩

/-- Models `TrackballCamera::get_normalized_mouse_coords`: centre the viewport
and scale by `min(width, height)`. -/
noncomputable def TrackballCamera.get_normalized_mouse_coords (e : Vec2) (extent : ℕ × ℕ) : Vec2 :=
  let trackball_radius : ℝ := (min extent.1 extent.2 : ℕ)
  let center : Vec2 := ⟨(extent.1 : ℝ) / 2, (extent.2 : ℝ) / 2⟩
  ⟨2 * (e.x - center.x) / trackball_radius, 2 * (e.y - center.y) / trackball_radius⟩

/-- Models `TrackballCamera::update`.  The source reads `this.rotationQ`,
which does not exist as a Rust expression; it is read as the one rotation
quaternion field the struct has for the current rotation, `curr_q` (identity
whenever no drag is active).  `slerp` is nalgebra's `UnitQuaternion::slerp`,
an external collaborator passed as a parameter.  Note the blend is taken at
the pre-decay momentum magnitude, and the decay multiplies by the damping
factor. -/
def TrackballCamera.update (slerp : Quat → Quat → ℝ → Quat) (c : TrackballCamera) :
    TrackballCamera :=
  match c.mouse_location with
  | none =>
      let combined_q := slerp c.curr_q c.momentum_q c.momentum_magnitude
      { c with
        momentum_magnitude := c.momentum_magnitude * c.damping_factor
        base_q := combined_q * c.base_q }
  | some _ => c

/-- Models `TrackballCamera::handle_event`.  Notes: (1) the source `match` has
two `CursorMoved` arms; the first (which only stores `x/y/dx/dy`) matches
every cursor move, so the second arm — the one that would recompute `curr_q`
from the drag positions — is unreachable under first-match semantics and is
therefore absent here; (2) `rotation_to` is nalgebra's
`UnitQuaternion::rotation_to`, an external collaborator passed as a
parameter. -/
noncomputable def TrackballCamera.handle_event (rotation_to : Vec3 → Vec3 → Quat)
    (extent : ℕ × ℕ) (event : WindowEvent) (c : TrackballCamera) : TrackballCamera :=
  let c := { c with user_input_state := c.user_input_state.handle_input event }
  match event with
  | .CursorMoved px py =>
      { c with dx := px - c.x, dy := py - c.y, x := px, y := py }
  | .MouseInput .Pressed =>
      { c with
        mouse_location := some
          (TrackballCamera.get_normalized_mouse_coords
            ⟨c.user_input_state.x, c.user_input_state.y⟩ extent,
           TrackballCamera.get_normalized_mouse_coords
            ⟨c.user_input_state.px, c.user_input_state.py⟩ extent) }
  | .MouseInput .Released =>
      let c' := match c.mouse_location with
        | some (curr, prev) =>
            let currv := normalize3 (TrackballCamera.project_trackball curr)
            let prevv := normalize3 (TrackballCamera.project_trackball prev)
            { c with
              momentum_q := rotation_to prevv currv
              momentum_magnitude := 1
              base_q := c.curr_q * c.base_q
              curr_q := 1 }
        | none => c
      { c' with mouse_location := none }
  | .KeyboardInput _ _ => c
  | .Other => c

theorem trackball_update_of_idle (slerp : Quat → Quat → ℝ → Quat) (c : TrackballCamera)
    (hm : c.mouse_location = none) :
    TrackballCamera.update slerp c
      = { c with
          momentum_magnitude := c.momentum_magnitude * c.damping_factor
          base_q := slerp c.curr_q c.momentum_q c.momentum_magnitude * c.base_q } := by
  unfold TrackballCamera.update
  rw [hm]

theorem trackball_update_idle_iter (slerp : Quat → Quat → ℝ → Quat) (c : TrackballCamera)
    (hm : c.mouse_location = none) (n : ℕ) :
    ((TrackballCamera.update slerp)^[n] c).mouse_location = none
    ∧ ((TrackballCamera.update slerp)^[n] c).curr_q = c.curr_q
    ∧ ((TrackballCamera.update slerp)^[n] c).momentum_q = c.momentum_q
    ∧ ((TrackballCamera.update slerp)^[n] c).damping_factor = c.damping_factor
    ∧ ((TrackballCamera.update slerp)^[n] c).momentum_magnitude
        = c.momentum_magnitude * c.damping_factor ^ n := by
  induction n with
  | zero => simpa using hm
  | succ n ih =>
    obtain ⟨h1, h2, h3, h4, h5⟩ := ih
    rw [Function.iterate_succ_apply', trackball_update_of_idle slerp _ h1]
    refine ⟨h1, h2, h3, h4, ?_⟩
    dsimp only
    rw [h5, h4, pow_succ]
    ring

/-- C5: from a just-released trackball state (no active drag, current-rotation
quaternion reset to identity, momentum magnitude 1), after `n` consecutive
`update()` calls with no further input the momentum magnitude equals
`damping_factor ^ n` (which tends to 0 when the damping factor is below 1 in
magnitude, e.g. the constructor's 0.9), and each further `update()` blends the
identity toward the momentum rotation by the pre-decay magnitude via the
spherical interpolation `slerp` and multiplies the blended rotation into the
base orientation. -/
theorem trackball_momentum_decay (slerp : Quat → Quat → ℝ → Quat) (c : TrackballCamera)
    (hm : c.mouse_location = none) (hq : c.curr_q = 1) (h1 : c.momentum_magnitude = 1)
    (hd : |c.damping_factor| < 1) (n : ℕ) :
    ((TrackballCamera.update slerp)^[n] c).momentum_magnitude = c.damping_factor ^ n
    ∧ ((TrackballCamera.update slerp)^[n + 1] c).base_q
        = slerp 1 c.momentum_q (c.damping_factor ^ n)
          * ((TrackballCamera.update slerp)^[n] c).base_q
    ∧ Filter.Tendsto (fun m => ((TrackballCamera.update slerp)^[m] c).momentum_magnitude)
        Filter.atTop (nhds 0) := by
  obtain ⟨g1, g2, g3, g4, g5⟩ := trackball_update_idle_iter slerp c hm n
  have hmagn : ((TrackballCamera.update slerp)^[n] c).momentum_magnitude
      = c.damping_factor ^ n := by rw [g5, h1, one_mul]
  refine ⟨hmagn, ?_, ?_⟩
  · rw [Function.iterate_succ_apply', trackball_update_of_idle slerp _ g1]
    dsimp only
    rw [g2, g3, hmagn, hq]
  · have hall : ∀ m, ((TrackballCamera.update slerp)^[m] c).momentum_magnitude
        = c.damping_factor ^ m := by
      intro m
      obtain ⟨_, _, _, _, g5m⟩ := trackball_update_idle_iter slerp c hm m
      rw [g5m, h1, one_mul]
    exact (tendsto_pow_atTop_nhds_zero_of_abs_lt_one hd).congr fun m => (hall m).symm

def slerpStub : Quat → Quat → ℝ → Quat := fun q _ _ => q

def trackballJustReleased : TrackballCamera :=
  { TrackballCamera.new ⟨0, 0, 0⟩ with momentum_magnitude := 1 }

/-- C5 witness: the decay theorem instantiated at a concrete just-released
camera (damping factor 0.9) after two updates. -/
theorem trackball_momentum_decay_witness :
    ((TrackballCamera.update slerpStub)^[2] trackballJustReleased).momentum_magnitude
        = trackballJustReleased.damping_factor ^ 2
    ∧ ((TrackballCamera.update slerpStub)^[3] trackballJustReleased).base_q
        = slerpStub 1 trackballJustReleased.momentum_q (trackballJustReleased.damping_factor ^ 2)
          * ((TrackballCamera.update slerpStub)^[2] trackballJustReleased).base_q
    ∧ Filter.Tendsto
        (fun m => ((TrackballCamera.update slerpStub)^[m] trackballJustReleased).momentum_magnitude)
        Filter.atTop (nhds 0) :=
  trackball_momentum_decay slerpStub trackballJustReleased rfl rfl rfl
    (by norm_num [trackballJustReleased, TrackballCamera.new, abs_lt]) 2

/-- Every `handle_event` call keeps the current-rotation quaternion at the
identity and commits only the identity into the base orientation (the source's
in-drag `curr_q` recomputation is unreachable, see
`TrackballCamera.handle_event`). -/
theorem trackball_handle_event_preserves (rotation_to : Vec3 → Vec3 → Quat)
    (extent : ℕ × ℕ) (e : WindowEvent) (c : TrackballCamera) (hq : c.curr_q = 1) :
    (TrackballCamera.handle_event rotation_to extent e c).curr_q = 1
    ∧ (TrackballCamera.handle_event rotation_to extent e c).base_q = c.base_q := by
  cases e with
  | CursorMoved px py => exact ⟨hq, rfl⟩
  | MouseInput state =>
    cases state with
    | Pressed => exact ⟨hq, rfl⟩
    | Released =>
      cases hm : c.mouse_location with
      | none =>
        constructor
        · simp [TrackballCamera.handle_event, hm, hq]
        · simp [TrackballCamera.handle_event, hm]
      | some pair =>
        obtain ⟨curr, prev⟩ := pair
        constructor
        · simp [TrackballCamera.handle_event, hm]
        · simp [TrackballCamera.handle_event, hm, hq, Quat.one_mul_q]
  | KeyboardInput key state => exact ⟨hq, rfl⟩
  | Other => exact ⟨hq, rfl⟩

/-- Processing of a list of window events in order, as delivered by the event
loop to `handle_event`. -/
noncomputable def processEvents (rotation_to : Vec3 → Vec3 → Quat) (extent : ℕ × ℕ)
    (c : TrackballCamera) (events : List WindowEvent) : TrackballCamera :=
  events.foldl (fun st e => TrackballCamera.handle_event rotation_to extent e st) c

theorem processEvents_preserves (rotation_to : Vec3 → Vec3 → Quat) (extent : ℕ × ℕ)
    (events : List WindowEvent) (c : TrackballCamera) (hq : c.curr_q = 1) :
    (processEvents rotation_to extent c events).curr_q = 1
    ∧ (processEvents rotation_to extent c events).base_q = c.base_q := by
  induction events generalizing c with
  | nil => exact ⟨hq, rfl⟩
  | cons e rest ih =>
    obtain ⟨h1, h2⟩ := trackball_handle_event_preserves rotation_to extent e c hq
    obtain ⟨h3, h4⟩ := ih (TrackballCamera.handle_event rotation_to extent e c) h1
    exact ⟨h3, h4.trans h2⟩

theorem processEvents_append_single (rotation_to : Vec3 → Vec3 → Quat) (extent : ℕ × ℕ)
    (c : TrackballCamera) (l : List WindowEvent) (e : WindowEvent) :
    processEvents rotation_to extent c (l ++ [e])
      = TrackballCamera.handle_event rotation_to extent e (processEvents rotation_to extent c l) := by
  unfold processEvents
  rw [List.foldl_append]
  rfl

/-- C6: a drag — pointer-down, any sequence of pointer moves, and pointer-up
with the pointer at the identical normalized position as the pointer-down
anchor — commits the identity rotation into the base orientation: the base
orientation after the drag equals the base orientation before it.  (The
hypothesis `hend` pins down the claim's anchor condition; the conclusion in
fact holds for every drag because the in-drag rotation update is shadowed in
the source.) -/
theorem trackball_drag_identity (rotation_to : Vec3 → Vec3 → Quat) (extent : ℕ × ℕ)
    (c : TrackballCamera) (hq : c.curr_q = 1) (moves : List (ℝ × ℝ))
    (hend : TrackballCamera.get_normalized_mouse_coords
        ⟨(processEvents rotation_to extent c
            (WindowEvent.MouseInput ElementState.Pressed
              :: moves.map fun m => WindowEvent.CursorMoved m.1 m.2)).user_input_state.x,
         (processEvents rotation_to extent c
            (WindowEvent.MouseInput ElementState.Pressed
              :: moves.map fun m => WindowEvent.CursorMoved m.1 m.2)).user_input_state.y⟩
        extent
      = TrackballCamera.get_normalized_mouse_coords
          ⟨c.user_input_state.x, c.user_input_state.y⟩ extent) :
    (processEvents rotation_to extent c
        ((WindowEvent.MouseInput ElementState.Pressed
            :: moves.map fun m => WindowEvent.CursorMoved m.1 m.2)
          ++ [WindowEvent.MouseInput ElementState.Released])).base_q
      = c.base_q := by
  rw [processEvents_append_single]
  obtain ⟨h1, h2⟩ := processEvents_preserves rotation_to extent
    (WindowEvent.MouseInput ElementState.Pressed
      :: moves.map fun m => WindowEvent.CursorMoved m.1 m.2) c hq
  obtain ⟨_, h4⟩ := trackball_handle_event_preserves rotation_to extent
    (WindowEvent.MouseInput ElementState.Released) _ h1
  exact h4.trans h2

/-- C6 witness: the drag-identity theorem at a freshly constructed camera with
an empty move list (pointer-up at the pointer-down anchor). -/
theorem trackball_drag_identity_witness :
    (processEvents (fun _ _ => 1) (4, 4) (TrackballCamera.new ⟨0, 0, 0⟩)
        ((WindowEvent.MouseInput ElementState.Pressed
            :: ([] : List (ℝ × ℝ)).map fun m => WindowEvent.CursorMoved m.1 m.2)
          ++ [WindowEvent.MouseInput ElementState.Released])).base_q
      = (TrackballCamera.new ⟨0, 0, 0⟩).base_q :=
  trackball_drag_identity (fun _ _ => 1) (4, 4) (TrackballCamera.new ⟨0, 0, 0⟩) rfl [] rfl

/-! ## Game world (`src/entity.rs`)

`GameWorld` is embedded polymorphically in the runtime-polymorphic camera and
renderer types: `S` models a sensor camera (`Box<dyn Camera>`), `R` an
offscreen renderer, `C` the interactive camera (`Box<dyn InteractiveCamera>`).
Their virtual methods, the external rapier solver step, and the offscreen
renderer constructor are collected in `Ext`, the external-collaborator
contract of the spec. -/

/-- A vertex of `src/vertex.rs` (`mVertex`): position plus RGBA color. -/
structure mVertex where
  loc : Vec3
  color : ℝ × ℝ × ℝ × ℝ

/-- An isometry (`nalgebra::Isometry3<f32>`): rotation quaternion plus
translation vector. -/
structure Iso where
  rotation : Quat
  translation : Vec3

def Quat.conj (q : Quat) : Quat := ⟨q.re, -q.i, -q.j, -q.k⟩

/-- Rotation action of a (unit) quaternion on a vector: the imaginary part of
`q · (0, v) · q*`, the semantics of nalgebra's `rotation * vector`. -/
def Quat.rotate (q : Quat) (v : Vec3) : Vec3 :=
  let p := q * (⟨0, v.x, v.y, v.z⟩ : Quat) * q.conj
  ⟨p.i, p.j, p.k⟩

/-- Modelled from the spec: the mesh transform utility
`object::transform(mesh, isometry)` — the `object` module is missing from the
sources — applies the rigid transform to every vertex. -/
def transform (mesh : List mVertex) (iso : Iso) : List mVertex :=
  mesh.map fun v => { v with loc := add3 (iso.rotation.rotate v.loc) iso.translation }

/-- Modelled from the spec: `object::get_aabb(mesh)` — missing from the
sources — returns the extents of the mesh's axis-aligned bounding box
(componentwise max minus min over the vertex positions), which `add_entity`
halves into cuboid collider half-extents. -/
noncomputable def get_aabb (mesh : List mVertex) : Vec3 :=
  let xs := mesh.map fun v => v.loc.x
  let ys := mesh.map fun v => v.loc.y
  let zs := mesh.map fun v => v.loc.z
  ⟨xs.foldr max 0 - xs.foldr min 0,
   ys.foldr max 0 - ys.foldr min 0,
   zs.foldr max 0 - zs.foldr min 0⟩

/-- A rapier rigid body as observed through the spec's physics-adapter
contract: dynamic/fixed kind, current position, and the impulses and torque
impulses applied to it (rapier folds impulses into velocities; recording them
keeps "an impulse was applied" observable in the model). -/
structure Body where
  is_dynamic : Bool
  position : Iso
  impulses : List Vec3
  torque_impulses : List Vec3

/-- The rapier rigid-body set: a fresh-handle counter plus handle-keyed
bodies. -/
structure RigidBodySet where
  next : ℕ
  bodies : List (ℕ × Body)

def RigidBodySet.empty : RigidBodySet := ⟨0, []⟩

/-- Models `RigidBodySet::insert`: returns the fresh handle and the grown
set. -/
def RigidBodySet.insert (s : RigidBodySet) (b : Body) : ℕ × RigidBodySet :=
  (s.next, ⟨s.next + 1, s.bodies ++ [(s.next, b)]⟩)

/-- Models `rigid_body_set[handle].position()`.  Indexing a missing handle
panics in the source; the model totalizes with the identity isometry (no
claim exercises that path). -/
def RigidBodySet.getPos (s : RigidBodySet) (h : ℕ) : Iso :=
  ((alookup h s.bodies).map Body.position).getD ⟨1, ⟨0, 0, 0⟩⟩

/-- Models `RigidBody::apply_impulse` on the body at the given handle. -/
def RigidBodySet.applyImpulse (s : RigidBodySet) (h : ℕ) (v : Vec3) : RigidBodySet :=
  ⟨s.next, s.bodies.map fun kb =>
    if kb.1 = h then (kb.1, { kb.2 with impulses := kb.2.impulses ++ [v] }) else kb⟩

/-- Models `RigidBody::apply_torque_impulse` on the body at the given
handle. -/
def RigidBodySet.applyTorqueImpulse (s : RigidBodySet) (h : ℕ) (v : Vec3) : RigidBodySet :=
  ⟨s.next, s.bodies.map fun kb =>
    if kb.1 = h then (kb.1, { kb.2 with torque_impulses := kb.2.torque_impulses ++ [v] }) else kb⟩

structure Collider where
  half_extents : Vec3
  parent : ℕ

structure ColliderSet where
  next : ℕ
  colliders : List (ℕ × Collider)

def ColliderSet.empty : ColliderSet := ⟨0, []⟩

/-- Models `ColliderSet::insert_with_parent` (the parent handle is stored in
the collider). -/
def ColliderSet.insert_with_parent (s : ColliderSet) (c : Collider) : ColliderSet :=
  ⟨s.next + 1, s.colliders ++ [(s.next, c)]⟩

structure PerCameraData (S R : Type) where
  camera : S
  renderer : R

structure Entity (S R : Type) where
  cameras : List (PerCameraData S R)
  rigid_body_handle : Option ℕ
  mesh : List mVertex
  isometry : Iso

/-- Models `PerWindowState`: the tracked entity id and the interactive
camera.  The window surface and the interactive renderer it also stores are
GPU/window plumbing outside the model. -/
structure PerWindowState (C : Type) where
  entity_id : ℕ
  camera : C

/-- Models `GameWorld`.  The physics pipeline scratch state (island manager,
broad/narrow phase, CCD solver) and the per-device vulkan objects are opaque
to every claim and live behind the external collaborators. -/
structure GameWorld (S R C : Type) where
  entities : List (ℕ × Entity S R)
  dynamic_scene : Scene ℕ mVertex
  static_scene : Scene ℕ mVertex
  rigid_body_set : RigidBodySet
  collider_set : ColliderSet
  impulse_joint_set : List (ℕ × ℕ)
  multibody_joint_set : List (ℕ × ℕ)
  per_window_state : Option (PerWindowState C)
  user_input_state : UserInputState

/-- The external collaborators and virtual camera/renderer methods consumed
by `GameWorld` (spec section 6): the rapier solver step, the offscreen
renderer constructor/extent/render/read-back, the sensor-camera methods of
`Box<dyn Camera>` (including the `set_rotation` the source calls on it), and
the interactive-camera methods of `Box<dyn InteractiveCamera>`. -/
structure Ext (S R C : Type) where
  physicsStep : RigidBodySet → RigidBodySet
  newRenderer : ℕ × ℕ → R
  extentR : R → ℕ × ℕ
  renderR : R → List (List mVertex) → M4 → R
  getImageR : R → List ℕ
  setPosS : S → Vec3 → S
  setRotS : S → Quat → S
  mvpS : S → ℕ × ℕ → M4
  setPosC : C → Vec3 → C
  setRotC : C → Quat → C
  updateC : C → C

variable {S R C : Type}

/-- Models `GameWorld::new` (the vulkan bootstrap, shader loading and the
device assertion are plumbing outside the model; the interactive rendering
config reduces to the tracked entity id and the camera object). -/
def GameWorld.new (config : Option (ℕ × C)) : GameWorld S R C :=
  { entities := []
    dynamic_scene := Scene.new []
    static_scene := Scene.new []
    rigid_body_set := RigidBodySet.empty
    collider_set := ColliderSet.empty
    impulse_joint_set := []
    multibody_joint_set := []
    per_window_state := config.map fun ic => ⟨ic.1, ic.2⟩
    user_input_state := UserInputState.new }

structure EntityCreationPhysicsData where
  is_dynamic : Bool

structure EntityCreationCameraData (S : Type) where
  camera : S
  extent : ℕ × ℕ

structure EntityCreationData (S : Type) where
  cameras : List (EntityCreationCameraData S)
  physics : Option EntityCreationPhysicsData
  mesh : List mVertex
  isometry : Iso

/-- Models `GameWorld::add_entity`: when a physics descriptor is present,
insert a rigid body (dynamic or fixed per `is_dynamic`) and a cuboid collider
with half the mesh AABB as half-extents, and write the transformed mesh into
the **dynamic** scene batch (whatever `is_dynamic` says); otherwise write it
into the static batch.  Allocate one offscreen renderer per requested sensor
camera and insert-or-replace the entity under its id. -/
noncomputable def GameWorld.add_entity (w : GameWorld S R C) (ext : Ext S R C)
    (entity_id : ℕ) (d : EntityCreationData S) : GameWorld S R C :=
  let cameras := d.cameras.map fun cd => PerCameraData.mk cd.camera (ext.newRenderer cd.extent)
  match d.physics with
  | some pd =>
      let hitbox := smul3 (1 / 2) (get_aabb d.mesh)
      let body : Body := ⟨pd.is_dynamic, d.isometry, [], []⟩
      let hr := w.rigid_body_set.insert body
      { w with
        rigid_body_set := hr.2
        collider_set := w.collider_set.insert_with_parent ⟨hitbox, hr.1⟩
        dynamic_scene := w.dynamic_scene.add_object entity_id (transform d.mesh d.isometry)
        entities := ainsert entity_id ⟨cameras, some hr.1, d.mesh, d.isometry⟩ w.entities }
  | none =>
      { w with
        static_scene := w.static_scene.add_object entity_id (transform d.mesh d.isometry)
        entities := ainsert entity_id ⟨cameras, none, d.mesh, d.isometry⟩ w.entities }

/-- Models `GameWorld::remove_entity`: take the entity out of the map; if it
had a rigid body, remove that body together with its attached colliders and
any joints involving it (rapier's `remove` with
`remove_attached_colliders = true`); then remove the entity's geometry from
both scene batches unconditionally. -/
def GameWorld.remove_entity (w : GameWorld S R C) (entity_id : ℕ) : GameWorld S R C :=
  let entity := alookup entity_id w.entities
  let w1 := { w with entities := aerase entity_id w.entities }
  let w2 := match entity with
    | some e =>
        match e.rigid_body_handle with
        | some h =>
            { w1 with
              rigid_body_set := ⟨w1.rigid_body_set.next,
                w1.rigid_body_set.bodies.filter fun kb => kb.1 ≠ h⟩
              collider_set := ⟨w1.collider_set.next,
                w1.collider_set.colliders.filter fun kc => kc.2.parent ≠ h⟩
              impulse_joint_set := w1.impulse_joint_set.filter fun j => j.1 ≠ h ∧ j.2 ≠ h
              multibody_joint_set := w1.multibody_joint_set.filter fun j => j.1 ≠ h ∧ j.2 ≠ h }
        | none => w1
    | none => w1
  { w2 with
    dynamic_scene := w2.dynamic_scene.remove_object entity_id
    static_scene := w2.static_scene.remove_object entity_id }

theorem alookup_append_of_some {A B : Type} [DecidableEq A] (k : A) (b : B)
    (l l2 : List (A × B)) (h : alookup k l = some b) :
    alookup k (l ++ l2) = some b := by
  induction l with
  | nil => simp [alookup] at h
  | cons hd tl ih =>
    obtain ⟨a, v⟩ := hd
    by_cases ha : a = k
    · simp [alookup, ha] at h ⊢; exact h
    · simp [alookup, ha] at h ⊢; exact ih h

theorem alookup_filter_ne_self {A B : Type} [DecidableEq A] (k : A) (l : List (A × B)) :
    alookup k (l.filter fun kb => kb.1 ≠ k) = none := by
  induction l with
  | nil => rfl
  | cons hd tl ih =>
    obtain ⟨a, v⟩ := hd
    by_cases ha : a = k
    · simpa [List.filter, ha] using ih
    · simpa [List.filter, ha, alookup] using ih

theorem remove_entity_components (w : GameWorld S R C) (entity_id : ℕ) :
    (w.remove_entity entity_id).entities = aerase entity_id w.entities
    ∧ (w.remove_entity entity_id).dynamic_scene.objects
        = aerase entity_id w.dynamic_scene.objects
    ∧ (w.remove_entity entity_id).static_scene.objects
        = aerase entity_id w.static_scene.objects := by
  cases he : alookup entity_id w.entities with
  | none => simp [GameWorld.remove_entity, he, Scene.remove_object]
  | some e =>
    cases hh : e.rigid_body_handle with
    | none => simp [GameWorld.remove_entity, he, hh, Scene.remove_object]
    | some h => simp [GameWorld.remove_entity, he, hh, Scene.remove_object]

/-- C3: after `remove_entity(id)` the entity is absent from the entity map
and its key is absent from both scene batches' object maps (hence from their
next rebuilt vertex buffers, which by `scene_lazy_rebuild_correct` flatten
exactly those maps); if the entity had a physics body, that body has been
removed from the body set — so its handle is no longer queryable — together
with its attached colliders and any joints involving it. -/
theorem remove_entity_postcondition (w : GameWorld S R C) (entity_id : ℕ) :
    alookup entity_id (w.remove_entity entity_id).entities = none
    ∧ alookup entity_id (w.remove_entity entity_id).dynamic_scene.objects = none
    ∧ alookup entity_id (w.remove_entity entity_id).static_scene.objects = none
    ∧ ∀ e h, alookup entity_id w.entities = some e → e.rigid_body_handle = some h →
        (alookup h (w.remove_entity entity_id).rigid_body_set.bodies = none
        ∧ (∀ kc, kc ∈ (w.remove_entity entity_id).collider_set.colliders →
            (kc : ℕ × Collider).2.parent ≠ h)
        ∧ (∀ j, j ∈ (w.remove_entity entity_id).impulse_joint_set →
            (j : ℕ × ℕ).1 ≠ h ∧ j.2 ≠ h)
        ∧ (∀ j, j ∈ (w.remove_entity entity_id).multibody_joint_set →
            (j : ℕ × ℕ).1 ≠ h ∧ j.2 ≠ h)) := by
  obtain ⟨hc1, hc2, hc3⟩ := remove_entity_components w entity_id
  refine ⟨by rw [hc1]; exact alookup_aerase_self entity_id _,
    by rw [hc2]; exact alookup_aerase_self entity_id _,
    by rw [hc3]; exact alookup_aerase_self entity_id _, ?_⟩
  intro e h he hh
  have hbodies : (w.remove_entity entity_id).rigid_body_set.bodies
      = w.rigid_body_set.bodies.filter fun kb => kb.1 ≠ h := by
    simp [GameWorld.remove_entity, he, hh]
  have hcolliders : (w.remove_entity entity_id).collider_set.colliders
      = w.collider_set.colliders.filter fun kc => kc.2.parent ≠ h := by
    simp [GameWorld.remove_entity, he, hh]
  have hjoints : (w.remove_entity entity_id).impulse_joint_set
      = w.impulse_joint_set.filter fun j => j.1 ≠ h ∧ j.2 ≠ h := by
    simp [GameWorld.remove_entity, he, hh]
  have hmjoints : (w.remove_entity entity_id).multibody_joint_set
      = w.multibody_joint_set.filter fun j => j.1 ≠ h ∧ j.2 ≠ h := by
    simp [GameWorld.remove_entity, he, hh]
  refine ⟨by rw [hbodies]; exact alookup_filter_ne_self h _, ?_, ?_, ?_⟩
  · intro kc hkc
    rw [hcolliders] at hkc
    have := List.of_mem_filter hkc
    simpa using this
  · intro j hj
    rw [hjoints] at hj
    have := List.of_mem_filter hj
    simpa using this
  · intro j hj
    rw [hmjoints] at hj
    have := List.of_mem_filter hj
    simpa using this

def unitExt : Ext Unit Unit Unit :=
  { physicsStep := id
    newRenderer := fun _ => ()
    extentR := fun _ => (1, 1)
    renderR := fun r _ _ => r
    getImageR := fun _ => []
    setPosS := fun s _ => s
    setRotS := fun s _ => s
    mvpS := fun _ _ => 1
    setPosC := fun c _ => c
    setRotC := fun c _ => c
    updateC := fun c => c }

def isoId : Iso := ⟨1, ⟨0, 0, 0⟩⟩

def physCreation : EntityCreationData Unit :=
  { cameras := [], physics := some ⟨true⟩, mesh := [], isometry := isoId }

noncomputable def physWorld : GameWorld Unit Unit Unit :=
  (GameWorld.new none).add_entity unitExt 0 physCreation

def physEntity : Entity Unit Unit := ⟨[], some 0, [], isoId⟩

def physBody : Body := ⟨true, isoId, [], []⟩

/-- C3 witness: removing the sole (physics-backed) entity of a concrete world
leaves the entity map, both scene object maps and the body set without it. -/
theorem remove_entity_postcondition_witness :
    alookup 0 (physWorld.remove_entity 0).entities = none
    ∧ alookup 0 (physWorld.remove_entity 0).dynamic_scene.objects = none
    ∧ alookup 0 (physWorld.remove_entity 0).static_scene.objects = none
    ∧ alookup 0 (physWorld.remove_entity 0).rigid_body_set.bodies = none :=
  ⟨(remove_entity_postcondition physWorld 0).1,
   (remove_entity_postcondition physWorld 0).2.1,
   (remove_entity_postcondition physWorld 0).2.2.1,
   ((remove_entity_postcondition physWorld 0).2.2.2 physEntity 0 rfl rfl).1⟩

/-- C10: `add_entity` with an id already present replaces the stored entity
but performs no cleanup of the previous entity: every rigid body already in
the body set (in particular the old entity's) stays queryable, and the scene
batch not chosen by the new creation data is left entirely untouched — so
when the old and new entity use different batches, the old geometry remains
in the other batch under the same key. -/
theorem add_entity_replaces_without_cleanup (ext : Ext S R C) (w : GameWorld S R C)
    (entity_id : ℕ) (d : EntityCreationData S) (eOld : Entity S R)
    (he : alookup entity_id w.entities = some eOld) :
    (∃ eNew, alookup entity_id (w.add_entity ext entity_id d).entities = some eNew
      ∧ eNew.mesh = d.mesh ∧ eNew.isometry = d.isometry
      ∧ eNew.rigid_body_handle.isSome = d.physics.isSome)
    ∧ (∀ h b, alookup h w.rigid_body_set.bodies = some b →
        alookup h (w.add_entity ext entity_id d).rigid_body_set.bodies = some b)
    ∧ (d.physics = none →
        (w.add_entity ext entity_id d).dynamic_scene = w.dynamic_scene)
    ∧ (∀ pd, d.physics = some pd →
        (w.add_entity ext entity_id d).static_scene = w.static_scene) := by
  cases hd : d.physics with
  | none =>
    refine ⟨⟨⟨d.cameras.map fun cd => PerCameraData.mk cd.camera (ext.newRenderer cd.extent),
        none, d.mesh, d.isometry⟩, ?_, rfl, rfl, by simp [hd]⟩, ?_, ?_, ?_⟩
    · simp [GameWorld.add_entity, hd]
      exact alookup_ainsert_self entity_id _ _
    · intro h b hb
      simpa [GameWorld.add_entity, hd] using hb
    · intro _
      simp [GameWorld.add_entity, hd]
    · intro pd hpd
      cases hpd
  | some pd =>
    refine ⟨⟨⟨d.cameras.map fun cd => PerCameraData.mk cd.camera (ext.newRenderer cd.extent),
        some w.rigid_body_set.next, d.mesh, d.isometry⟩, ?_, rfl, rfl, by simp [hd]⟩, ?_, ?_, ?_⟩
    · simp [GameWorld.add_entity, hd, RigidBodySet.insert]
      exact alookup_ainsert_self entity_id _ _
    · intro h b hb
      simp only [GameWorld.add_entity, hd, RigidBodySet.insert]
      exact alookup_append_of_some h b _ _ hb
    · intro hnone
      cases hnone
    · intro pd2 hpd
      simp [GameWorld.add_entity, hd]

def staticCreation : EntityCreationData Unit :=
  { cameras := [], physics := none, mesh := [], isometry := isoId }

/-- C10 witness: re-adding id 0 (previously a physics-backed dynamic-batch
entity) with a physics-free creation leaves the old rigid body in the body
set and the dynamic batch untouched (still holding the old geometry under
key 0). -/
theorem add_entity_replaces_without_cleanup_witness :
    alookup 0 ((physWorld.add_entity unitExt 0 staticCreation)).rigid_body_set.bodies
        = some physBody
    ∧ (physWorld.add_entity unitExt 0 staticCreation).dynamic_scene
        = physWorld.dynamic_scene
    ∧ alookup 0 physWorld.dynamic_scene.objects = some (transform [] isoId) :=
  ⟨(add_entity_replaces_without_cleanup unitExt physWorld 0 staticCreation physEntity rfl).2.1
      0 physBody rfl,
   (add_entity_replaces_without_cleanup unitExt physWorld 0 staticCreation physEntity rfl).2.2.1
      rfl,
   rfl⟩

/-- The batch-choice half of C2 exactly as stated: the scene batch is chosen
at creation by whether `physics.is_dynamic` was requested — so an entity
created with a physics descriptor whose `is_dynamic` is `false` would get its
geometry into the static batch and not into the dynamic one. -/
def BatchChosenByIsDynamic : Prop :=
  ∀ (ext : Ext Unit Unit Unit) (entity_id : ℕ) (d : EntityCreationData Unit),
    d.physics = some ⟨false⟩ →
    (alookup entity_id
        (((GameWorld.new none).add_entity ext entity_id d)).static_scene.objects).isSome = true
    ∧ alookup entity_id
        (((GameWorld.new none).add_entity ext entity_id d)).dynamic_scene.objects = none

def fixedCreation : EntityCreationData Unit :=
  { cameras := [], physics := some ⟨false⟩, mesh := [], isometry := isoId }

/-- C2 counterexample: creating an entity with a physics descriptor whose
`is_dynamic` is `false` (a fixed body) puts its geometry into the **dynamic**
scene batch and nothing into the static one — the batch is chosen by the
presence of the physics descriptor, not by `is_dynamic`. -/
theorem batch_not_chosen_by_is_dynamic : ¬ BatchChosenByIsDynamic := by
  intro hclaim
  have h := (hclaim unitExt 0 fixedCreation rfl).1
  have hfalse : (alookup 0
      (((GameWorld.new none).add_entity unitExt 0 fixedCreation)).static_scene.objects).isSome
      = false := rfl
  rw [hfalse] at h
  cases h

/-! ### `GameWorld::step`

The per-frame step, in source order: physics advance, entity isometry sync
(into the scene batches), tracked-entity impulse, per-entity offscreen camera
renders (which force the lazy scene-buffer rebuild), interactive camera sync,
and the observation map. -/

inductive WhichScene where
  | dynamicScene
  | staticScene

open Classical in
/-- Entity isometry sync (`step`, first `for` loop body): a physics-attached
entity reads its authoritative position from the body set and targets the
dynamic batch; a detached entity keeps its stored isometry (so the comparison
below is with itself) and targets the static batch.  Only when the transform
changed is the re-transformed mesh written back (returned here as the scene
add to perform). -/
noncomputable def syncEntity (rbs : RigidBodySet) (e : Entity S R) :
    Entity S R × Option (WhichScene × List mVertex) :=
  let sn : WhichScene × Iso :=
    match e.rigid_body_handle with
    | some rigid_body_handle => (WhichScene.dynamicScene, rbs.getPos rigid_body_handle)
    | none => (WhichScene.staticScene, e.isometry)
  if sn.2 ≠ e.isometry then
    let e2 := { e with isometry := sn.2 }
    (e2, some (sn.1, transform e.mesh e2.isometry))
  else
    (e, none)

/-- The sync loop over all entities, threading both scene batches. -/
noncomputable def syncEntities (rbs : RigidBodySet) :
    List (ℕ × Entity S R) → Scene ℕ mVertex → Scene ℕ mVertex →
      List (ℕ × Entity S R) × Scene ℕ mVertex × Scene ℕ mVertex
  | [], dyn, stat => ([], dyn, stat)
  | (entity_id, e) :: rest, dyn, stat =>
      let es := syncEntity rbs e
      let scenes : Scene ℕ mVertex × Scene ℕ mVertex :=
        match es.2 with
        | some (WhichScene.dynamicScene, vs) => (dyn.add_object entity_id vs, stat)
        | some (WhichScene.staticScene, vs) => (dyn, stat.add_object entity_id vs)
        | none => (dyn, stat)
      let rec2 := syncEntities rbs rest scenes.1 scenes.2
      ((entity_id, es.1) :: rec2.1, rec2.2)

/-- Tracked-entity input impulse (`step`, the first `per_window_state`
block): when the tracked id resolves to a physics-attached entity, translate
the held W/S keys into a rotated impulse and A/D into a torque impulse on its
body; in every other case do nothing. -/
def trackedImpulse (pws : Option (PerWindowState C)) (uis : UserInputState)
    (entities : List (ℕ × Entity S R)) (rbs : RigidBodySet) : RigidBodySet :=
  match pws with
  | some p =>
      match alookup p.entity_id entities with
      | some e =>
          match e.rigid_body_handle with
          | some h =>
              let impulse : Vec3 :=
                if uis.w then ⟨1, 0, 0⟩ else if uis.s then ⟨-1, 0, 0⟩ else ⟨0, 0, 0⟩
              let torque_impulse : Vec3 :=
                if uis.a then ⟨0, -1, 0⟩ else if uis.d then ⟨0, 1, 0⟩ else ⟨0, 0, 0⟩
              let rbs2 := rbs.applyImpulse h (smul3 0.09 (e.isometry.rotation.rotate impulse))
              rbs2.applyTorqueImpulse h (smul3 0.01 torque_impulse)
          | none => rbs
      | none => rbs
  | none => rbs

/-- Per-camera half of the offscreen loop: position and orient the sensor
camera at the entity's isometry, then render the present scene buffers (the
reads force the lazy rebuild, mutating the scenes) with the camera's MVP. -/
noncomputable def renderCameras (ext : Ext S R C) (iso : Iso) :
    List (PerCameraData S R) → Scene ℕ mVertex → Scene ℕ mVertex →
      List (PerCameraData S R) × Scene ℕ mVertex × Scene ℕ mVertex
  | [], dyn, stat => ([], dyn, stat)
  | pc :: rest, dyn, stat =>
      let cam := ext.setRotS (ext.setPosS pc.camera iso.translation) iso.rotation
      let extent := ext.extentR pc.renderer
      let vbD := dyn.vertexBuffer
      let vbS := stat.vertexBuffer
      let vertex_buffers := [vbD.1, vbS.1].filterMap id
      let r2 := ext.renderR pc.renderer vertex_buffers (ext.mvpS cam extent)
      let rec2 := renderCameras ext iso rest vbD.2 vbS.2
      (PerCameraData.mk cam r2 :: rec2.1, rec2.2)

/-- The offscreen-render loop over all entities (`step`, second `for`
loop). -/
noncomputable def offscreenPass (ext : Ext S R C) :
    List (ℕ × Entity S R) → Scene ℕ mVertex → Scene ℕ mVertex →
      List (ℕ × Entity S R) × Scene ℕ mVertex × Scene ℕ mVertex
  | [], dyn, stat => ([], dyn, stat)
  | (entity_id, e) :: rest, dyn, stat =>
      let cs := renderCameras ext e.isometry e.cameras dyn stat
      let e2 := { e with cameras := cs.1 }
      let rec2 := offscreenPass ext rest cs.2.1 cs.2.2
      ((entity_id, e2) :: rec2.1, rec2.2)

/-- Interactive camera sync (`step`, second `per_window_state` block): when
the tracked id resolves, move and orient the interactive camera to the
entity's isometry and call its `update()`; otherwise leave it alone. -/
def syncWindowCamera (ext : Ext S R C) (entities : List (ℕ × Entity S R)) :
    Option (PerWindowState C) → Option (PerWindowState C)
  | some p =>
      match alookup p.entity_id entities with
      | some e =>
          let cam := ext.setRotC (ext.setPosC p.camera e.isometry.translation) e.isometry.rotation
          some { p with camera := ext.updateC cam }
      | none => some p
  | none => none

/-- Models `GameWorld::step`, returning the stepped world and the observation
map (entity id to the pixel buffers read back from its sensor cameras, in
the entity map's iteration order). -/
noncomputable def GameWorld.step (w : GameWorld S R C) (ext : Ext S R C) :
    GameWorld S R C × List (ℕ × List (List ℕ)) :=
  let rbs1 := ext.physicsStep w.rigid_body_set
  let sy := syncEntities rbs1 w.entities w.dynamic_scene w.static_scene
  let rbs2 := trackedImpulse w.per_window_state w.user_input_state sy.1 rbs1
  let op := offscreenPass ext sy.1 sy.2.1 sy.2.2
  let pws2 := syncWindowCamera ext op.1 w.per_window_state
  let obs := op.1.map fun ie => (ie.1, ie.2.cameras.map fun pc => ext.getImageR pc.renderer)
  ({ w with
      entities := op.1
      dynamic_scene := op.2.1
      static_scene := op.2.2
      rigid_body_set := rbs2
      per_window_state := pws2 }, obs)

theorem syncEntities_keys (rbs : RigidBodySet) (es : List (ℕ × Entity S R))
    (dyn stat : Scene ℕ mVertex) :
    (syncEntities rbs es dyn stat).1.map Prod.fst = es.map Prod.fst := by
  induction es generalizing dyn stat with
  | nil => rfl
  | cons hd tl ih =>
    obtain ⟨entity_id, e⟩ := hd
    simp only [syncEntities, List.map_cons]
    exact congrArg (List.cons entity_id) (ih _ _)

theorem offscreenPass_keys (ext : Ext S R C) (es : List (ℕ × Entity S R))
    (dyn stat : Scene ℕ mVertex) :
    (offscreenPass ext es dyn stat).1.map Prod.fst = es.map Prod.fst := by
  induction es generalizing dyn stat with
  | nil => rfl
  | cons hd tl ih =>
    obtain ⟨entity_id, e⟩ := hd
    simp only [offscreenPass, List.map_cons]
    exact congrArg (List.cons entity_id) (ih _ _)

theorem renderCameras_length (ext : Ext S R C) (iso : Iso)
    (cams : List (PerCameraData S R)) (dyn stat : Scene ℕ mVertex) :
    (renderCameras ext iso cams dyn stat).1.length = cams.length := by
  induction cams generalizing dyn stat with
  | nil => rfl
  | cons pc rest ih =>
    simp only [renderCameras, List.length_cons]
    exact congrArg Nat.succ (ih _ _)

theorem syncEntities_lookup (rbs : RigidBodySet) (es : List (ℕ × Entity S R))
    (dyn stat : Scene ℕ mVertex) (k : ℕ) :
    alookup k (syncEntities rbs es dyn stat).1
      = (alookup k es).map fun e => (syncEntity rbs e).1 := by
  induction es generalizing dyn stat with
  | nil => rfl
  | cons hd tl ih =>
    obtain ⟨entity_id, e⟩ := hd
    by_cases hk : entity_id = k
    · simp [syncEntities, alookup, hk]
    · simp [syncEntities, alookup, hk, ih]

theorem offscreenPass_lookup (ext : Ext S R C) (es : List (ℕ × Entity S R))
    (dyn stat : Scene ℕ mVertex) (k : ℕ) :
    (alookup k es = none → alookup k (offscreenPass ext es dyn stat).1 = none)
    ∧ (∀ e, alookup k es = some e →
        ∃ e2, alookup k (offscreenPass ext es dyn stat).1 = some e2
          ∧ e2.cameras.length = e.cameras.length
          ∧ e2.rigid_body_handle = e.rigid_body_handle
          ∧ e2.mesh = e.mesh
          ∧ e2.isometry = e.isometry) := by
  induction es generalizing dyn stat with
  | nil => exact ⟨fun _ => rfl, fun e he => by simp [alookup] at he⟩
  | cons hd tl ih =>
    obtain ⟨entity_id, e⟩ := hd
    by_cases hk : entity_id = k
    · subst hk
      constructor
      · intro hnone
        simp [alookup] at hnone
      · intro e0 he0
        simp only [alookup, if_pos rfl] at he0
        cases he0
        refine ⟨{ e with cameras := (renderCameras ext e.isometry e.cameras dyn stat).1 },
          ?_, renderCameras_length ext _ _ _ _, rfl, rfl, rfl⟩
        simp [offscreenPass, alookup]
    · constructor
      · intro hnone
        simp only [alookup, hk, if_neg hk] at hnone
        simpa [offscreenPass, alookup, hk] using (ih _ _).1 hnone
      · intro e0 he0
        simp only [alookup, hk, if_neg hk] at he0
        obtain ⟨e2, h1, h2⟩ := (ih (renderCameras ext e.isometry e.cameras dyn stat).2.1
          (renderCameras ext e.isometry e.cameras dyn stat).2.2).2 e0 he0
        exact ⟨e2, by simpa [offscreenPass, alookup, hk] using h1, h2⟩

theorem offscreenPass_obs_empty (ext : Ext S R C) (es : List (ℕ × Entity S R))
    (dyn stat : Scene ℕ mVertex) (k : ℕ) (e0 : Entity S R)
    (he : alookup k es = some e0) (hc : e0.cameras = []) :
    alookup k (mapVals (fun e : Entity S R => e.cameras.map fun pc => ext.getImageR pc.renderer)
      (offscreenPass ext es dyn stat).1) = some [] := by
  obtain ⟨e2, h1, h2, _⟩ := (offscreenPass_lookup ext es dyn stat k).2 e0 he
  rw [alookup_mapVals, h1]
  have he2 : e2.cameras = [] := by
    refine List.length_eq_zero.mp ?_
    rw [h2, hc]
    rfl
  simp [he2]

/-- C9: the observation map returned by `step()` has exactly one entry per
entity currently in the world — its key list is the entity map's key list —
and an entity with zero attached sensor cameras is mapped to the empty list
of pixel buffers rather than being omitted. -/
theorem step_observations_cover_entities (w : GameWorld S R C) (ext : Ext S R C) :
    (w.step ext).2.map Prod.fst = w.entities.map Prod.fst
    ∧ (∀ entity_id e, alookup entity_id w.entities = some e → e.cameras = [] →
        alookup entity_id (w.step ext).2 = some []) := by
  constructor
  · calc ((w.step ext).2).map Prod.fst
        = (offscreenPass ext (syncEntities (ext.physicsStep w.rigid_body_set) w.entities
            w.dynamic_scene w.static_scene).1
            (syncEntities (ext.physicsStep w.rigid_body_set) w.entities
              w.dynamic_scene w.static_scene).2.1
            (syncEntities (ext.physicsStep w.rigid_body_set) w.entities
              w.dynamic_scene w.static_scene).2.2).1.map Prod.fst := List.map_map _ _ _
      _ = w.entities.map Prod.fst := by rw [offscreenPass_keys, syncEntities_keys]
  · intro entity_id e he hcam
    have hsync : alookup entity_id (syncEntities (ext.physicsStep w.rigid_body_set) w.entities
        w.dynamic_scene w.static_scene).1
        = some (syncEntity (ext.physicsStep w.rigid_body_set) e).1 := by
      rw [syncEntities_lookup, he]
      rfl
    have hsynccam : (syncEntity (ext.physicsStep w.rigid_body_set) e).1.cameras = [] := by
      unfold syncEntity
      by_cases hne : (match e.rigid_body_handle with
        | some rigid_body_handle => (WhichScene.dynamicScene,
            (ext.physicsStep w.rigid_body_set).getPos rigid_body_handle)
        | none => (WhichScene.staticScene, e.isometry) : WhichScene × Iso).2 ≠ e.isometry
      · simp only [if_pos hne]
        exact hcam
      · simp only [if_neg hne]
        exact hcam
    exact offscreenPass_obs_empty ext
      (syncEntities (ext.physicsStep w.rigid_body_set) w.entities
        w.dynamic_scene w.static_scene).1
      (syncEntities (ext.physicsStep w.rigid_body_set) w.entities
        w.dynamic_scene w.static_scene).2.1
      (syncEntities (ext.physicsStep w.rigid_body_set) w.entities
        w.dynamic_scene w.static_scene).2.2
      entity_id _ hsync hsynccam

/-- C4: when the per-window tracked entity id does not resolve to an existing
entity, `step()` treats both camera paths as silent no-ops: the interactive
camera object is returned untouched (for **every** implementation of its
`set_position`/`set_rotation`/`update` methods, i.e. none of them is
applied), the body set is exactly the physics-step result (no impulse or
torque impulse is applied), and the rest of `step()` — entities, both scene
batches and the observation map — is exactly what stepping the same world
without any per-window state produces. -/
theorem step_missing_tracked_id_noop (w : GameWorld S R C) (ext : Ext S R C)
    (p : PerWindowState C) (hp : w.per_window_state = some p)
    (hmiss : alookup p.entity_id w.entities = none) :
    (w.step ext).1.per_window_state = some p
    ∧ (w.step ext).1.rigid_body_set = ext.physicsStep w.rigid_body_set
    ∧ (w.step ext).1.entities
        = (({ w with per_window_state := none } : GameWorld S R C).step ext).1.entities
    ∧ (w.step ext).1.dynamic_scene
        = (({ w with per_window_state := none } : GameWorld S R C).step ext).1.dynamic_scene
    ∧ (w.step ext).1.static_scene
        = (({ w with per_window_state := none } : GameWorld S R C).step ext).1.static_scene
    ∧ (w.step ext).2 = (({ w with per_window_state := none } : GameWorld S R C).step ext).2 := by
  have hsy1none : alookup p.entity_id (syncEntities (ext.physicsStep w.rigid_body_set)
      w.entities w.dynamic_scene w.static_scene).1 = none := by
    rw [syncEntities_lookup, hmiss]
    rfl
  have hopnone : alookup p.entity_id (offscreenPass ext
      (syncEntities (ext.physicsStep w.rigid_body_set) w.entities
        w.dynamic_scene w.static_scene).1
      (syncEntities (ext.physicsStep w.rigid_body_set) w.entities
        w.dynamic_scene w.static_scene).2.1
      (syncEntities (ext.physicsStep w.rigid_body_set) w.entities
        w.dynamic_scene w.static_scene).2.2).1 = none :=
    (offscreenPass_lookup ext
      (syncEntities (ext.physicsStep w.rigid_body_set) w.entities
        w.dynamic_scene w.static_scene).1
      (syncEntities (ext.physicsStep w.rigid_body_set) w.entities
        w.dynamic_scene w.static_scene).2.1
      (syncEntities (ext.physicsStep w.rigid_body_set) w.entities
        w.dynamic_scene w.static_scene).2.2
      p.entity_id).1 hsy1none
  refine ⟨?_, ?_, rfl, rfl, rfl, rfl⟩
  · show syncWindowCamera ext (offscreenPass ext
        (syncEntities (ext.physicsStep w.rigid_body_set) w.entities
          w.dynamic_scene w.static_scene).1
        (syncEntities (ext.physicsStep w.rigid_body_set) w.entities
          w.dynamic_scene w.static_scene).2.1
        (syncEntities (ext.physicsStep w.rigid_body_set) w.entities
          w.dynamic_scene w.static_scene).2.2).1 w.per_window_state = some p
    rw [hp]
    simp [syncWindowCamera, hopnone]
  · show trackedImpulse w.per_window_state w.user_input_state
        (syncEntities (ext.physicsStep w.rigid_body_set) w.entities
          w.dynamic_scene w.static_scene).1
        (ext.physicsStep w.rigid_body_set)
      = ext.physicsStep w.rigid_body_set
    rw [hp]
    simp [trackedImpulse, hsy1none]

def trackedWorld : GameWorld Unit Unit Unit := GameWorld.new (some (5, ()))

def trackedPws : PerWindowState Unit := ⟨5, ()⟩

/-- C4 witness: a world whose tracked entity id 5 matches no entity steps to
an unchanged per-window state and an impulse-free body set. -/
theorem step_missing_tracked_id_noop_witness :
    (trackedWorld.step unitExt).1.per_window_state = some trackedPws
    ∧ (trackedWorld.step unitExt).1.rigid_body_set
        = unitExt.physicsStep trackedWorld.rigid_body_set :=
  ⟨(step_missing_tracked_id_noop trackedWorld unitExt trackedPws rfl rfl).1,
   (step_missing_tracked_id_noop trackedWorld unitExt trackedPws rfl rfl).2.1⟩

def emptyCamWorld : GameWorld Unit Unit Unit :=
  { entities := [(3, ⟨[], none, [], isoId⟩)]
    dynamic_scene := Scene.new []
    static_scene := Scene.new []
    rigid_body_set := RigidBodySet.empty
    collider_set := ColliderSet.empty
    impulse_joint_set := []
    multibody_joint_set := []
    per_window_state := none
    user_input_state := UserInputState.new }

/-- C9 witness: a world with one camera-less entity (id 3) yields an
observation map keyed exactly by 3 and mapping it to the empty list. -/
theorem step_observations_cover_entities_witness :
    (emptyCamWorld.step unitExt).2.map Prod.fst = emptyCamWorld.entities.map Prod.fst
    ∧ alookup 3 (emptyCamWorld.step unitExt).2 = some [] :=
  ⟨(step_observations_cover_entities emptyCamWorld unitExt).1,
   (step_observations_cover_entities emptyCamWorld unitExt).2 3 ⟨[], none, [], isoId⟩ rfl rfl⟩

/-! ### Batch-exclusivity invariant (C2)

The invariant relates each entity's rigid-body handle — fixed at creation by
the presence of the physics descriptor — to the scene batch holding its
geometry, across every world reachable by fresh-id `add_entity`,
`remove_entity` and `step` calls. -/

theorem keys_ainsert_of_none {A B : Type} [DecidableEq A] (k : A) (v : B) (l : List (A × B))
    (h : alookup k l = none) :
    (ainsert k v l).map Prod.fst = l.map Prod.fst ++ [k] := by
  induction l with
  | nil => rfl
  | cons hd tl ih =>
    obtain ⟨a, b⟩ := hd
    by_cases ha : a = k
    · simp [alookup, ha] at h
    · simp only [alookup, if_neg ha] at h
      simp [ainsert, ha, ih h]

theorem aerase_sublist {A B : Type} [DecidableEq A] (k : A) (l : List (A × B)) :
    (aerase k l).Sublist l := by
  induction l with
  | nil => simp [aerase]
  | cons hd tl ih =>
    obtain ⟨a, b⟩ := hd
    by_cases ha : a = k
    · simp only [aerase, if_pos ha]
      exact ih.cons _
    · simp only [aerase, if_neg ha]
      exact ih.cons₂ _

theorem isSome_alookup_ainsert {A B : Type} [DecidableEq A] (k k2 : A) (v : B)
    (l : List (A × B)) (h : (alookup k l).isSome = true) :
    (alookup k (ainsert k2 v l)).isSome = true := by
  by_cases hk : k2 = k
  · subst hk
    rw [alookup_ainsert_self]
    rfl
  · rw [alookup_ainsert_ne k2 k v l hk]
    exact h

theorem alookup_nodup_mem {A B : Type} [DecidableEq A] (k : A) (v v' : B) (l : List (A × B))
    (hnd : (l.map Prod.fst).Nodup) (hl : alookup k l = some v) (hm : (k, v') ∈ l) : v' = v := by
  induction l with
  | nil => cases hm
  | cons hd tl ih =>
    obtain ⟨a, b⟩ := hd
    simp only [List.map_cons, List.nodup_cons] at hnd
    rcases List.mem_cons.mp hm with heq | hmem
    · cases heq
      simp only [alookup, if_pos rfl] at hl
      exact (Option.some.inj hl)
    · have hk : ¬ a = k := by
        intro hak
        subst hak
        exact hnd.1 (List.mem_map_of_mem Prod.fst hmem)
      simp only [alookup, if_neg hk] at hl
      exact ih hnd.2 hl hmem

theorem syncEntity_fields (rbs : RigidBodySet) (e : Entity S R) :
    (syncEntity rbs e).1.rigid_body_handle = e.rigid_body_handle
    ∧ (syncEntity rbs e).1.cameras = e.cameras := by
  simp only [syncEntity]
  split
  · exact ⟨rfl, rfl⟩
  · exact ⟨rfl, rfl⟩

theorem syncEntity_upd (rbs : RigidBodySet) (e : Entity S R) :
    (syncEntity rbs e).2 = none
    ∨ ∃ vs, (syncEntity rbs e).2 = some (WhichScene.dynamicScene, vs)
        ∧ e.rigid_body_handle.isSome = true := by
  simp only [syncEntity]
  cases hh : e.rigid_body_handle with
  | none => simp
  | some h =>
    split
    · right
      exact ⟨_, rfl, rfl⟩
    · left
      rfl

theorem vertexBuffer_objects {K V : Type} [DecidableEq K] (s : Scene K V) :
    (s.vertexBuffer).2.objects = s.objects := by
  unfold Scene.vertexBuffer
  split <;> rfl

theorem renderCameras_scenes (ext : Ext S R C) (iso : Iso) (cams : List (PerCameraData S R))
    (dyn stat : Scene ℕ mVertex) :
    (renderCameras ext iso cams dyn stat).2.1.objects = dyn.objects
    ∧ (renderCameras ext iso cams dyn stat).2.2.objects = stat.objects := by
  induction cams generalizing dyn stat with
  | nil => exact ⟨rfl, rfl⟩
  | cons pc rest ih =>
    simp only [renderCameras]
    obtain ⟨h1, h2⟩ := ih (dyn.vertexBuffer).2 (stat.vertexBuffer).2
    exact ⟨h1.trans (vertexBuffer_objects dyn), h2.trans (vertexBuffer_objects stat)⟩

theorem offscreenPass_scenes (ext : Ext S R C) (es : List (ℕ × Entity S R))
    (dyn stat : Scene ℕ mVertex) :
    (offscreenPass ext es dyn stat).2.1.objects = dyn.objects
    ∧ (offscreenPass ext es dyn stat).2.2.objects = stat.objects := by
  induction es generalizing dyn stat with
  | nil => exact ⟨rfl, rfl⟩
  | cons hd tl ih =>
    obtain ⟨entity_id, e⟩ := hd
    simp only [offscreenPass]
    obtain ⟨h1, h2⟩ := ih (renderCameras ext e.isometry e.cameras dyn stat).2.1
      (renderCameras ext e.isometry e.cameras dyn stat).2.2
    obtain ⟨g1, g2⟩ := renderCameras_scenes ext e.isometry e.cameras dyn stat
    exact ⟨h1.trans g1, h2.trans g2⟩

theorem syncEntities_static (rbs : RigidBodySet) (es : List (ℕ × Entity S R))
    (dyn stat : Scene ℕ mVertex) :
    (syncEntities rbs es dyn stat).2.2.objects = stat.objects := by
  induction es generalizing dyn stat with
  | nil => rfl
  | cons hd tl ih =>
    obtain ⟨entity_id, e⟩ := hd
    simp only [syncEntities]
    rcases syncEntity_upd rbs e with hnone | ⟨vs, hsome, hhandle⟩
    · simp only [hnone]
      exact ih dyn stat
    · simp only [hsome]
      exact ih (dyn.add_object entity_id vs) stat

theorem syncEntities_dyn (rbs : RigidBodySet) (es : List (ℕ × Entity S R))
    (dyn stat : Scene ℕ mVertex) (k : ℕ) :
    ((alookup k dyn.objects).isSome = true →
      (alookup k (syncEntities rbs es dyn stat).2.1.objects).isSome = true)
    ∧ (alookup k dyn.objects = none →
        (∀ e : Entity S R, (k, e) ∈ es → e.rigid_body_handle = none) →
        alookup k (syncEntities rbs es dyn stat).2.1.objects = none) := by
  induction es generalizing dyn stat with
  | nil => exact ⟨fun h => h, fun h _ => h⟩
  | cons hd tl ih =>
    obtain ⟨entity_id, e⟩ := hd
    simp only [syncEntities]
    rcases syncEntity_upd rbs e with hnone | ⟨vs, hsome, hhandle⟩
    · simp only [hnone]
      obtain ⟨i1, i2⟩ := ih dyn stat
      exact ⟨i1, fun h1 h2 => i2 h1 fun e' he' => h2 e' (List.mem_cons_of_mem _ he')⟩
    · simp only [hsome]
      obtain ⟨i1, i2⟩ := ih (dyn.add_object entity_id vs) stat
      constructor
      · intro h
        refine i1 ?_
        show (alookup k (ainsert entity_id vs dyn.objects)).isSome = true
        exact isSome_alookup_ainsert k entity_id vs dyn.objects h
      · intro h1 h2
        by_cases hk : entity_id = k
        · subst hk
          have hcontra := h2 e (List.mem_cons_self _ _)
          rw [hcontra] at hhandle
          cases hhandle
        · refine i2 ?_ fun e' he' => h2 e' (List.mem_cons_of_mem _ he')
          show alookup k (ainsert entity_id vs dyn.objects) = none
          rw [alookup_ainsert_ne entity_id k vs dyn.objects hk]
          exact h1

theorem step_keys (w : GameWorld S R C) (ext : Ext S R C) :
    (w.step ext).1.entities.map Prod.fst = w.entities.map Prod.fst :=
  (offscreenPass_keys ext _ _ _).trans (syncEntities_keys _ _ _ _)

theorem step_static_objects (w : GameWorld S R C) (ext : Ext S R C) :
    (w.step ext).1.static_scene.objects = w.static_scene.objects :=
  ((offscreenPass_scenes ext _ _ _).2).trans (syncEntities_static _ _ _ _)

theorem step_dyn_objects (w : GameWorld S R C) (ext : Ext S R C) (k : ℕ) :
    ((alookup k w.dynamic_scene.objects).isSome = true →
      (alookup k (w.step ext).1.dynamic_scene.objects).isSome = true)
    ∧ (alookup k w.dynamic_scene.objects = none →
        (∀ e : Entity S R, (k, e) ∈ w.entities → e.rigid_body_handle = none) →
        alookup k (w.step ext).1.dynamic_scene.objects = none) := by
  have hdyn : (w.step ext).1.dynamic_scene.objects
      = (syncEntities (ext.physicsStep w.rigid_body_set) w.entities w.dynamic_scene
          w.static_scene).2.1.objects := (offscreenPass_scenes ext _ _ _).1
  constructor
  · intro h
    rw [hdyn]
    exact (syncEntities_dyn _ _ _ _ k).1 h
  · intro h hk
    rw [hdyn]
    exact (syncEntities_dyn _ _ _ _ k).2 h hk

theorem step_entities_lookup (w : GameWorld S R C) (ext : Ext S R C) (k : ℕ) :
    (alookup k w.entities = none → alookup k (w.step ext).1.entities = none)
    ∧ (∀ e0, alookup k w.entities = some e0 →
        ∃ e2, alookup k (w.step ext).1.entities = some e2
          ∧ e2.rigid_body_handle = e0.rigid_body_handle) := by
  constructor
  · intro h
    have hs : alookup k (syncEntities (ext.physicsStep w.rigid_body_set) w.entities
        w.dynamic_scene w.static_scene).1 = none := by
      rw [syncEntities_lookup, h]
      rfl
    exact (offscreenPass_lookup ext
      (syncEntities (ext.physicsStep w.rigid_body_set) w.entities
        w.dynamic_scene w.static_scene).1
      (syncEntities (ext.physicsStep w.rigid_body_set) w.entities
        w.dynamic_scene w.static_scene).2.1
      (syncEntities (ext.physicsStep w.rigid_body_set) w.entities
        w.dynamic_scene w.static_scene).2.2 k).1 hs
  · intro e0 h
    have hs : alookup k (syncEntities (ext.physicsStep w.rigid_body_set) w.entities
        w.dynamic_scene w.static_scene).1
        = some ((syncEntity (ext.physicsStep w.rigid_body_set) e0).1) := by
      rw [syncEntities_lookup, h]
      rfl
    obtain ⟨e2, h1, _, hh, _⟩ := (offscreenPass_lookup ext
      (syncEntities (ext.physicsStep w.rigid_body_set) w.entities
        w.dynamic_scene w.static_scene).1
      (syncEntities (ext.physicsStep w.rigid_body_set) w.entities
        w.dynamic_scene w.static_scene).2.1
      (syncEntities (ext.physicsStep w.rigid_body_set) w.entities
        w.dynamic_scene w.static_scene).2.2 k).2 _ hs
    refine ⟨e2, h1, ?_⟩
    rw [hh, (syncEntity_fields (ext.physicsStep w.rigid_body_set) e0).1]

/-- The batch-exclusivity invariant: entity keys are unique; an entity with a
rigid-body handle has its geometry key in the dynamic batch and not in the
static one; an entity without a handle has it in the static batch and not in
the dynamic one; and keys of absent entities are in neither batch. -/
def BatchInv (w : GameWorld S R C) : Prop :=
  (w.entities.map Prod.fst).Nodup
  ∧ (∀ entity_id e, alookup entity_id w.entities = some e →
      (e.rigid_body_handle.isSome = true →
        (alookup entity_id w.dynamic_scene.objects).isSome = true
        ∧ alookup entity_id w.static_scene.objects = none)
      ∧ (e.rigid_body_handle = none →
        (alookup entity_id w.static_scene.objects).isSome = true
        ∧ alookup entity_id w.dynamic_scene.objects = none))
  ∧ (∀ entity_id, alookup entity_id w.entities = none →
      alookup entity_id w.dynamic_scene.objects = none
      ∧ alookup entity_id w.static_scene.objects = none)

/-- Worlds reachable from `GameWorld::new` by `add_entity` with a fresh id,
`remove_entity`, and `step`. -/
inductive Reach (ext : Ext S R C) : GameWorld S R C → Prop where
  | base (config : Option (ℕ × C)) : Reach ext (GameWorld.new config)
  | add (w : GameWorld S R C) (entity_id : ℕ) (d : EntityCreationData S)
      (hw : Reach ext w) (hfresh : alookup entity_id w.entities = none) :
      Reach ext (w.add_entity ext entity_id d)
  | remove (w : GameWorld S R C) (entity_id : ℕ) (hw : Reach ext w) :
      Reach ext (w.remove_entity entity_id)
  | world_step (w : GameWorld S R C) (hw : Reach ext w) :
      Reach ext (w.step ext).1

theorem batchInv_new (config : Option (ℕ × C)) :
    BatchInv (GameWorld.new config : GameWorld S R C) := by
  refine ⟨List.nodup_nil, ?_, ?_⟩
  · intro entity_id e he
    simp [GameWorld.new, alookup] at he
  · intro entity_id _
    exact ⟨rfl, rfl⟩

theorem batchInv_add (ext : Ext S R C) (w : GameWorld S R C) (entity_id : ℕ)
    (d : EntityCreationData S) (hfresh : alookup entity_id w.entities = none)
    (hinv : BatchInv w) : BatchInv (w.add_entity ext entity_id d) := by
  obtain ⟨hnd, h2, h3⟩ := hinv
  cases hd : d.physics with
  | some pd =>
    have hent : (w.add_entity ext entity_id d).entities
        = ainsert entity_id
            ⟨d.cameras.map fun cd => PerCameraData.mk cd.camera (ext.newRenderer cd.extent),
             some w.rigid_body_set.next, d.mesh, d.isometry⟩ w.entities := by
      simp [GameWorld.add_entity, hd, RigidBodySet.insert]
    have hdyn : (w.add_entity ext entity_id d).dynamic_scene.objects
        = ainsert entity_id (transform d.mesh d.isometry) w.dynamic_scene.objects := by
      simp [GameWorld.add_entity, hd, Scene.add_object]
    have hstat : (w.add_entity ext entity_id d).static_scene = w.static_scene := by
      simp [GameWorld.add_entity, hd]
    refine ⟨?_, ?_, ?_⟩
    · rw [hent, keys_ainsert_of_none entity_id _ _ hfresh, List.nodup_append]
      refine ⟨hnd, List.nodup_singleton entity_id, ?_⟩
      intro a ha hb
      rw [List.mem_singleton] at hb
      subst hb
      exact (not_mem_keys_of_alookup_none a _ hfresh) ha
    · intro k e' he'
      by_cases hk : entity_id = k
      · subst hk
        rw [hent, alookup_ainsert_self] at he'
        cases he'
        constructor
        · intro _
          refine ⟨?_, ?_⟩
          · rw [hdyn, alookup_ainsert_self]
            rfl
          · rw [hstat]
            exact (h3 entity_id hfresh).2
        · intro hnone
          simp at hnone
      · rw [hent, alookup_ainsert_ne entity_id k _ _ hk] at he'
        have old := h2 k e' he'
        constructor
        · intro hs
          obtain ⟨o1, o2⟩ := old.1 hs
          refine ⟨?_, ?_⟩
          · rw [hdyn]
            exact isSome_alookup_ainsert k entity_id _ _ o1
          · rw [hstat]
            exact o2
        · intro hnone
          obtain ⟨o1, o2⟩ := old.2 hnone
          refine ⟨by rw [hstat]; exact o1, ?_⟩
          rw [hdyn, alookup_ainsert_ne entity_id k _ _ hk]
          exact o2
    · intro k hk0
      by_cases hk : entity_id = k
      · subst hk
        rw [hent, alookup_ainsert_self] at hk0
        simp at hk0
      · rw [hent, alookup_ainsert_ne entity_id k _ _ hk] at hk0
        obtain ⟨o1, o2⟩ := h3 k hk0
        refine ⟨?_, by rw [hstat]; exact o2⟩
        rw [hdyn, alookup_ainsert_ne entity_id k _ _ hk]
        exact o1
  | none =>
    have hent : (w.add_entity ext entity_id d).entities
        = ainsert entity_id
            ⟨d.cameras.map fun cd => PerCameraData.mk cd.camera (ext.newRenderer cd.extent),
             none, d.mesh, d.isometry⟩ w.entities := by
      simp [GameWorld.add_entity, hd]
    have hstat2 : (w.add_entity ext entity_id d).static_scene.objects
        = ainsert entity_id (transform d.mesh d.isometry) w.static_scene.objects := by
      simp [GameWorld.add_entity, hd, Scene.add_object]
    have hdyn2 : (w.add_entity ext entity_id d).dynamic_scene = w.dynamic_scene := by
      simp [GameWorld.add_entity, hd]
    refine ⟨?_, ?_, ?_⟩
    · rw [hent, keys_ainsert_of_none entity_id _ _ hfresh, List.nodup_append]
      refine ⟨hnd, List.nodup_singleton entity_id, ?_⟩
      intro a ha hb
      rw [List.mem_singleton] at hb
      subst hb
      exact (not_mem_keys_of_alookup_none a _ hfresh) ha
    · intro k e' he'
      by_cases hk : entity_id = k
      · subst hk
        rw [hent, alookup_ainsert_self] at he'
        cases he'
        constructor
        · intro hs
          simp at hs
        · intro _
          refine ⟨?_, ?_⟩
          · rw [hstat2, alookup_ainsert_self]
            rfl
          · rw [hdyn2]
            exact (h3 entity_id hfresh).1
      · rw [hent, alookup_ainsert_ne entity_id k _ _ hk] at he'
        have old := h2 k e' he'
        constructor
        · intro hs
          obtain ⟨o1, o2⟩ := old.1 hs
          refine ⟨by rw [hdyn2]; exact o1, ?_⟩
          rw [hstat2, alookup_ainsert_ne entity_id k _ _ hk]
          exact o2
        · intro hnone
          obtain ⟨o1, o2⟩ := old.2 hnone
          refine ⟨?_, by rw [hdyn2]; exact o2⟩
          rw [hstat2]
          exact isSome_alookup_ainsert k entity_id _ _ o1
    · intro k hk0
      by_cases hk : entity_id = k
      · subst hk
        rw [hent, alookup_ainsert_self] at hk0
        simp at hk0
      · rw [hent, alookup_ainsert_ne entity_id k _ _ hk] at hk0
        obtain ⟨o1, o2⟩ := h3 k hk0
        refine ⟨by rw [hdyn2]; exact o1, ?_⟩
        rw [hstat2, alookup_ainsert_ne entity_id k _ _ hk]
        exact o2

theorem batchInv_remove (w : GameWorld S R C) (entity_id : ℕ) (hinv : BatchInv w) :
    BatchInv (w.remove_entity entity_id) := by
  obtain ⟨hc1, hc2, hc3⟩ := remove_entity_components w entity_id
  obtain ⟨hnd, h2, h3⟩ := hinv
  refine ⟨?_, ?_, ?_⟩
  · rw [hc1]
    exact List.Nodup.sublist (List.Sublist.map Prod.fst (aerase_sublist entity_id w.entities)) hnd
  · intro k e' he'
    rw [hc1] at he'
    by_cases hk : entity_id = k
    · subst hk
      rw [alookup_aerase_self] at he'
      simp at he'
    · rw [alookup_aerase_ne entity_id k _ hk] at he'
      have old := h2 k e' he'
      constructor
      · intro hs
        obtain ⟨o1, o2⟩ := old.1 hs
        exact ⟨by rw [hc2, alookup_aerase_ne entity_id k _ hk]; exact o1,
               by rw [hc3, alookup_aerase_ne entity_id k _ hk]; exact o2⟩
      · intro hn
        obtain ⟨o1, o2⟩ := old.2 hn
        exact ⟨by rw [hc3, alookup_aerase_ne entity_id k _ hk]; exact o1,
               by rw [hc2, alookup_aerase_ne entity_id k _ hk]; exact o2⟩
  · intro k hk0
    rw [hc1] at hk0
    by_cases hk : entity_id = k
    · subst hk
      exact ⟨by rw [hc2]; exact alookup_aerase_self _ _,
             by rw [hc3]; exact alookup_aerase_self _ _⟩
    · rw [alookup_aerase_ne entity_id k _ hk] at hk0
      obtain ⟨o1, o2⟩ := h3 k hk0
      exact ⟨by rw [hc2, alookup_aerase_ne entity_id k _ hk]; exact o1,
             by rw [hc3, alookup_aerase_ne entity_id k _ hk]; exact o2⟩

theorem batchInv_step (w : GameWorld S R C) (ext : Ext S R C) (hinv : BatchInv w) :
    BatchInv (w.step ext).1 := by
  obtain ⟨hnd, h2, h3⟩ := hinv
  refine ⟨by rw [step_keys]; exact hnd, ?_, ?_⟩
  · intro k e' he'
    cases hw0 : alookup k w.entities with
    | none =>
      have hop := (step_entities_lookup w ext k).1 hw0
      rw [hop] at he'
      cases he'
    | some e0 =>
      obtain ⟨e2, hop, hh⟩ := (step_entities_lookup w ext k).2 e0 hw0
      have he2 : e' = e2 := Option.some.inj (hop.symm.trans he').symm
      subst he2
      have hhe : e'.rigid_body_handle = e0.rigid_body_handle := hh
      have old := h2 k e0 hw0
      constructor
      · intro hs2
        rw [hhe] at hs2
        obtain ⟨o1, o2⟩ := old.1 hs2
        refine ⟨(step_dyn_objects w ext k).1 o1, ?_⟩
        rw [step_static_objects]
        exact o2
      · intro hn
        rw [hhe] at hn
        obtain ⟨o1, o2⟩ := old.2 hn
        refine ⟨by rw [step_static_objects]; exact o1, ?_⟩
        refine (step_dyn_objects w ext k).2 o2 ?_
        intro e'' he''
        rw [alookup_nodup_mem k e0 e'' w.entities hnd hw0 he'']
        exact hn
  · intro k hk0
    have hw0 : alookup k w.entities = none := by
      apply alookup_none_of_not_mem_keys
      have hmem := not_mem_keys_of_alookup_none k _ hk0
      rw [step_keys] at hmem
      exact hmem
    obtain ⟨o1, o2⟩ := h3 k hw0
    refine ⟨?_, by rw [step_static_objects]; exact o2⟩
    refine (step_dyn_objects w ext k).2 o1 ?_
    intro e'' he''
    exact absurd (List.mem_map_of_mem Prod.fst he'') (not_mem_keys_of_alookup_none k _ hw0)

theorem batchInv_reach (ext : Ext S R C) (w : GameWorld S R C) (hw : Reach ext w) :
    BatchInv w := by
  induction hw with
  | base config => exact batchInv_new config
  | add w entity_id d hw hfresh ih => exact batchInv_add ext w entity_id d hfresh ih
  | remove w entity_id hw ih => exact batchInv_remove w entity_id ih
  | world_step w hw ih => exact batchInv_step w ext ih

/-- C2 (amended): over every world reachable from `GameWorld::new` by
fresh-id `add_entity`, `remove_entity` and `step` calls, each existing
entity's geometry key lives in exactly one scene batch: in the dynamic batch
iff the entity carries a rigid-body handle — i.e. iff a physics descriptor
(of either `is_dynamic` value) was requested at creation — and in the static
batch iff it does not; since the handle field never changes after creation,
the geometry never migrates between batches while the entity exists. -/
theorem entity_batch_exclusive (ext : Ext S R C) (w : GameWorld S R C) (hw : Reach ext w)
    (entity_id : ℕ) (e : Entity S R) (he : alookup entity_id w.entities = some e) :
    (alookup entity_id w.dynamic_scene.objects).isSome = e.rigid_body_handle.isSome
    ∧ (alookup entity_id w.static_scene.objects).isSome = !e.rigid_body_handle.isSome := by
  obtain ⟨-, h2, -⟩ := batchInv_reach ext w hw
  have old := h2 entity_id e he
  cases hh : e.rigid_body_handle with
  | some h =>
    obtain ⟨o1, o2⟩ := old.1 (by rw [hh]; rfl)
    exact ⟨o1, by rw [o2]; rfl⟩
  | none =>
    obtain ⟨o1, o2⟩ := old.2 hh
    exact ⟨by rw [o2]; rfl, o1⟩

noncomputable def reachWorld : GameWorld Unit Unit Unit :=
  (GameWorld.new none).add_entity unitExt 7 staticCreation

def staticEntity : Entity Unit Unit := ⟨[], none, [], isoId⟩

/-- C2 (amended) witness: a world reached by adding the fresh physics-free
entity 7 has its geometry in the static batch only. -/
theorem entity_batch_exclusive_witness :
    (alookup 7 reachWorld.dynamic_scene.objects).isSome
        = staticEntity.rigid_body_handle.isSome
    ∧ (alookup 7 reachWorld.static_scene.objects).isSome
        = !staticEntity.rigid_body_handle.isSome :=
  entity_batch_exclusive unitExt reachWorld
    (Reach.add (GameWorld.new none) 7 staticCreation (Reach.base none) rfl)
    7 staticEntity rfl

end Minidrive
